import Mathlib

/-!
Verification development for the prediction data model of this repository
(roboflow/util/prediction.py): the Prediction and PredictionGroup classes,
the annotation-drawing helper, and the JSON string serialization used by
Prediction.__str__.  Python dictionaries with string keys are embedded as
association lists of JSON-shaped values, Python exceptions as an explicit
error type, and the warning side channel as an explicit list of the warning
messages the code would build.
-/

/-- JSON-shaped values: the data domain of the field mappings wrapped by
Prediction objects (JSON null, booleans, numbers, strings, arrays, objects).
Python numbers (int and float alike) are embedded as exact rationals. -/
inductive JValue : Type where
  | null : JValue
  | bool (b : Bool) : JValue
  | num (q : ℚ) : JValue
  | str (s : String) : JValue
  | arr (l : List JValue) : JValue
  | obj (l : List (String × JValue)) : JValue

mutual

/-- Structural size of a JSON value, used as a termination measure. -/
def jsize : JValue → Nat
  | .null => 1
  | .bool _ => 1
  | .num _ => 1
  | .str _ => 1
  | .arr l => jsizeArr l + 1
  | .obj l => jsizeObj l + 1

/-- Structural size of a list of JSON values. -/
def jsizeArr : List JValue → Nat
  | [] => 0
  | v :: r => jsize v + jsizeArr r + 1

/-- Structural size of the member list of a JSON object. -/
def jsizeObj : List (String × JValue) → Nat
  | [] => 0
  | (_, v) :: r => jsize v + jsizeObj r + 1

end

/-- Lookup in a Python dict embedded as an association list
(`d[key]` when the key is present; real dicts have no duplicate keys). -/
def dictGet : List (String × JValue) → String → Option JValue
  | [], _ => Option.none
  | (k, v) :: rest, key => if k = key then some v else dictGet rest key

/-- Assignment `d[key] = v` on a Python dict embedded as an association list:
an existing key keeps its position and gets the new value, a fresh key is
appended at the end (Python dicts preserve insertion order). -/
def dictSet : List (String × JValue) → String → JValue → List (String × JValue)
  | [], key, v => [(key, v)]
  | (k, w) :: rest, key, v =>
      if k = key then (key, v) :: rest else (k, w) :: dictSet rest key v

mutual

/-- Python equality (`==`) on JSON-shaped values: numbers compare by value
(and booleans compare equal to 0/1 as in Python), lists compare pointwise,
dicts compare as key-value mappings (same size, every key of the left side
present on the right with an equal value). -/
def pyEq : JValue → JValue → Bool
  | .null, .null => true
  | .bool a, .bool b => a == b
  | .bool a, .num q => q == (if a then (1 : ℚ) else 0)
  | .num q, .bool b => q == (if b then (1 : ℚ) else 0)
  | .num a, .num b => a == b
  | .str a, .str b => a == b
  | .arr a, .arr b => pyEqArr a b
  | .obj a, .obj b => a.length == b.length && pyEqObj a b
  | _, _ => false

/-- Pointwise Python equality of two lists. -/
def pyEqArr : List JValue → List JValue → Bool
  | [], [] => true
  | a :: as1, b :: bs1 => pyEq a b && pyEqArr as1 bs1
  | _, _ => false

/-- Every key-value pair of the first object is matched in the second. -/
def pyEqObj : List (String × JValue) → List (String × JValue) → Bool
  | [], _ => true
  | (k, v) :: rest, b =>
      (match dictGet b k with
       | some w => pyEq v w
       | Option.none => false) && pyEqObj rest b

end

/-- Python exceptions raised by the embedded code. -/
inductive PyError : Type where
  | keyError (key : String)
  | typeError (msg : String)
  | indexError (msg : String)
  | exception (msg : String)

/-- Modelled from the spec: the object-detection discriminant string from
roboflow.config (the config module is not among the sources; the spec
describes `prediction_type` as an enum OBJECT_DETECTION | CLASSIFICATION
of distinct string discriminants). -/
def OBJECT_DETECTION_MODEL : String := "object-detection"

/-- Modelled from the spec: the classification discriminant string from
roboflow.config (not among the sources; see OBJECT_DETECTION_MODEL). -/
def CLASSIFICATION_MODEL : String := "classification"

/-- Modelled from the spec: the expected type name from roboflow.config used
by the group membership check; the spec says membership is validated by a
runtime type-name comparison against the Prediction class name. -/
def PREDICTION_OBJECT : String := "Prediction"

/-- class Prediction: a thin wrapper around its field mapping
`json_prediction` (a Python dict with string keys). -/
structure Prediction : Type where
  json_prediction : List (String × JValue)

/-- Prediction.__init__(json_prediction, image_path, prediction_type):
injects `image_path` and then `prediction_type` into the field mapping. -/
def Prediction.make (json_prediction : List (String × JValue))
    (image_path : String) (prediction_type : String) : Prediction :=
  ⟨dictSet (dictSet json_prediction "image_path" (.str image_path))
    "prediction_type" (.str prediction_type)⟩

/-- Prediction.json(): returns the underlying field mapping. -/
def Prediction.json (p : Prediction) : List (String × JValue) :=
  p.json_prediction

/-- Prediction.__getitem__(key): dictionary-style field access;
raises KeyError when the key is absent. -/
def Prediction.getItem (p : Prediction) (key : String) : Except PyError JValue :=
  match dictGet p.json_prediction key with
  | some v => .ok v
  | Option.none => .error (.keyError key)

/-- Python values that can reach the PredictionGroup operations: Prediction
instances and plain data values (None, dicts, lists, numbers, strings).
Python None is `PyVal.val JValue.null`. -/
inductive PyVal : Type where
  | pred (p : Prediction)
  | val (v : JValue)

/-- type(x).__name__ for the embedded value universe (numbers are embedded
as a single numeric type, reported as "int"). -/
def PyVal.typeName : PyVal → String
  | .pred _ => "Prediction"
  | .val .null => "NoneType"
  | .val (.bool _) => "bool"
  | .val (.num _) => "int"
  | .val (.str _) => "str"
  | .val (.arr _) => "list"
  | .val (.obj _) => "dict"

/-- Whether a value is a Prediction instance. -/
def PyVal.isPred : PyVal → Bool
  | .pred _ => true
  | .val _ => false

/-- Whether a value is Python None. -/
def PyVal.isNone : PyVal → Bool
  | .val .null => true
  | _ => false

/-- Subscripting `v[key]` with a string key: field lookup on Predictions and
dicts, TypeError on values that do not support string subscripts. -/
def PyVal.getItem : PyVal → String → Except PyError JValue
  | .pred p, key => p.getItem key
  | .val (.obj d), key =>
      match dictGet d key with
      | some v => .ok v
      | Option.none => .error (.keyError key)
  | .val (.arr _), _ =>
      .error (.typeError "list indices must be integers or slices, not str")
  | .val (.str _), _ => .error (.typeError "string indices must be integers")
  | .val .null, _ => .error (.typeError "NoneType object is not subscriptable")
  | .val (.bool _), _ => .error (.typeError "bool object is not subscriptable")
  | .val (.num _), _ => .error (.typeError "int object is not subscriptable")

/-- Coercing a value to a number for arithmetic (Python booleans are
numeric); anything else is a TypeError. -/
def JValue.asNum : JValue → Except PyError ℚ
  | .num q => .ok q
  | .bool b => .ok (if b then 1 else 0)
  | _ => .error (.typeError "unsupported operand type")

/-- Coercing a value for string concatenation (`"..." + v`); non-strings
raise a TypeError in Python. -/
def JValue.asStr : JValue → Except PyError String
  | .str s => .ok s
  | _ => .error (.typeError "can only concatenate str")

/-- class PredictionGroup: an ordered member list plus the two derived base
fields, both of which default to the empty string. -/
structure PredictionGroup : Type where
  predictions : List PyVal
  base_image_path : JValue
  base_prediction_type : JValue

/-- Python keyword arguments defaulting to None: passing None explicitly is
indistinguishable from omitting the argument. -/
def pyOptVal : Option PyVal → Option PyVal
  | some (.val .null) => Option.none
  | o => o

/-- Same normalization for optional JSON-valued keyword arguments. -/
def pyOptJ : Option JValue → Option JValue
  | some .null => Option.none
  | o => o

/-- The prediction-type branch of PredictionGroup.__exception_check: when a
prediction type was passed, the group is non-empty, and the type differs
from the base type, the warning message is built by string concatenation
(so a non-string operand is itself a TypeError, as in Python). -/
def PredictionGroup.typeWarning (g : PredictionGroup) (ptc : Option JValue) :
    Except PyError (List String) :=
  match ptc with
  | some t =>
    if g.predictions.length > 0 && ! pyEq t g.base_prediction_type then
      match t.asStr with
      | .error e => .error e
      | .ok ts =>
        match g.base_prediction_type.asStr with
        | .error e => .error e
        | .ok bs =>
          .ok ["This prediction is a different type (" ++ ts ++
            ") than the prediction group base type (" ++ bs ++ ")"]
    else .ok []
  | Option.none => .ok []

/-- The image-path branch of PredictionGroup.__exception_check: when an
image path was passed and differs from the base image path, the warning
message is built by string concatenation. -/
def PredictionGroup.pathWarning (g : PredictionGroup) (imc : Option JValue) :
    Except PyError (List String) :=
  match imc with
  | some ip =>
    if ! pyEq g.base_image_path ip then
      match ip.asStr with
      | .error e => .error e
      | .ok ps =>
        match g.base_image_path.asStr with
        | .error e => .error e
        | .ok bs =>
          .ok ["This prediction has a different image path (" ++ ps ++
            ") than the prediction group base image path (" ++ bs ++ ")"]
    else .ok []
  | Option.none => .ok []

/-- The two warning branches of __exception_check run in source order. -/
def PredictionGroup.checkWarnings (g : PredictionGroup) (imc : Option JValue)
    (ptc : Option JValue) : Except PyError (List String) :=
  match PredictionGroup.typeWarning g ptc with
  | .error e => .error e
  | .ok ws1 =>
    match PredictionGroup.pathWarning g imc with
    | .error e => .error e
    | .ok ws2 => .ok (ws1 ++ ws2)

/-- PredictionGroup.__exception_check(is_prediction_check, image_path_check,
prediction_type_check): raises when a non-Prediction is passed, and returns
the (possibly empty) list of warning messages it emits, built exactly as the
source builds them.  Keyword arguments explicitly passed as Python None
behave like the None defaults (the body only acts on non-None arguments). -/
def PredictionGroup.exception_check (g : PredictionGroup)
    (is_prediction_check : Option PyVal) (image_path_check : Option JValue)
    (prediction_type_check : Option JValue) : Except PyError (List String) :=
  match pyOptVal is_prediction_check with
  | some v =>
    if v.typeName = PREDICTION_OBJECT then
      PredictionGroup.checkWarnings g (pyOptJ image_path_check)
        (pyOptJ prediction_type_check)
    else
      .error (.exception ("Cannot add type " ++ v.typeName ++ " to PredictionGroup"))
  | Option.none =>
      PredictionGroup.checkWarnings g (pyOptJ image_path_check)
        (pyOptJ prediction_type_check)

/-- The loop of PredictionGroup.__init__: for each argument (with its
enumeration index), the first argument sets the two base fields, every
argument passes the membership check, and is then appended. -/
def PredictionGroup.initAux (index : Nat) (g : PredictionGroup)
    (acc : List String) : List PyVal → Except PyError (PredictionGroup × List String)
  | [] => .ok (g, acc)
  | v :: rest =>
    match (if index = 0 then
            match v.getItem "image_path" with
            | .error e => .error e
            | .ok ip =>
              match v.getItem "prediction_type" with
              | .error e => .error e
              | .ok pt =>
                .ok { g with base_image_path := ip, base_prediction_type := pt }
          else .ok g : Except PyError PredictionGroup) with
    | .error e => .error e
    | .ok g1 =>
      match g1.exception_check (some v) Option.none Option.none with
      | .error e => .error e
      | .ok ws =>
        PredictionGroup.initAux (index + 1)
          { g1 with predictions := g1.predictions ++ [v] } (acc ++ ws) rest

/-- PredictionGroup.__init__(*args): starts from an empty member list and
empty-string base fields and runs the constructor loop. -/
def PredictionGroup.init (args : List PyVal) :
    Except PyError (PredictionGroup × List String) :=
  PredictionGroup.initAux 0 ⟨[], .str "", .str ""⟩ [] args

/-- Small-step outcome of a mutating method call: the raised exception if
any, the state of the object after the call (mutations made before the
exception persist), and the warnings emitted before returning or raising. -/
structure AddOutcome : Type where
  err : Option PyError
  state : PredictionGroup
  warnings : List String

/-- PredictionGroup.add_prediction(prediction): evaluates
`prediction["prediction_type"]`, runs the membership check together with the
type warning check, then either warns about a differing image path (group
non-empty) or adopts the image path as base (group empty), and appends. -/
def PredictionGroup.add_prediction (g : PredictionGroup) (v : PyVal) : AddOutcome :=
  match v.getItem "prediction_type" with
  | .error e => ⟨some e, g, []⟩
  | .ok pt =>
    match g.exception_check (some v) Option.none (some pt) with
    | .error e => ⟨some e, g, []⟩
    | .ok ws1 =>
      if g.predictions.length > 0 then
        match v.getItem "image_path" with
        | .error e => ⟨some e, g, ws1⟩
        | .ok ip =>
          match g.exception_check Option.none (some ip) Option.none with
          | .error e => ⟨some e, g, ws1⟩
          | .ok ws2 =>
            ⟨Option.none, { g with predictions := g.predictions ++ [v] }, ws1 ++ ws2⟩
      else
        match v.getItem "image_path" with
        | .error e => ⟨some e, g, ws1⟩
        | .ok ip =>
          ⟨Option.none,
            { g with base_image_path := ip, predictions := g.predictions ++ [v] }, ws1⟩

/-- A Python subscript: either an integer index or a string key. -/
inductive PyIndex : Type where
  | int (i : Int)
  | str (s : String)

/-- PredictionGroup.__getitem__(index): indexes the member list; a string
key is a TypeError on a Python list, an out-of-range integer an IndexError
(negative indices count from the end, as in Python). -/
def PredictionGroup.getItem (g : PredictionGroup) : PyIndex → Except PyError PyVal
  | .int i =>
    let j := if i < 0 then i + g.predictions.length else i
    if 0 ≤ j then
      match g.predictions[j.toNat]? with
      | some p => .ok p
      | Option.none => .error (.indexError "list index out of range")
    else .error (.indexError "list index out of range")
  | .str _ => .error (.typeError "list indices must be integers or slices, not str")

/-- Prediction.save(path): looks up the prediction type and does nothing in
every branch (an intentionally unimplemented stub). -/
def Prediction.save (p : Prediction) (path : String) : Except PyError Unit :=
  match p.getItem "prediction_type" with
  | .error e => .error e
  | .ok t =>
    if pyEq t (.str OBJECT_DETECTION_MODEL) then .ok ()
    else if pyEq t (.str CLASSIFICATION_MODEL) then .ok ()
    else .ok ()

/-- Python equality between an arbitrary value and a string constant:
true only for an equal plain value (a Prediction instance never equals a
string). -/
def PyVal.eqStr (v : PyVal) (s : String) : Bool :=
  match v with
  | .pred _ => false
  | .val j => pyEq j (.str s)

/-- PredictionGroup.save(path): evaluates `self["prediction_type"]`, which
goes through PredictionGroup.__getitem__ and therefore subscripts the
member list with a string key. -/
def PredictionGroup.save (g : PredictionGroup) (path : String) : Except PyError Unit :=
  match g.getItem (.str "prediction_type") with
  | .error e => .error e
  | .ok t =>
    if t.eqStr OBJECT_DETECTION_MODEL then .ok ()
    else if t.eqStr CLASSIFICATION_MODEL then .ok ()
    else .ok ()

/-- Drawing commands issued against the plot axes: an (unfilled when
facecolor is "none") rectangle patch anchored at its lower-left corner, or
setting the axes title. -/
inductive DrawCmd : Type where
  | rectangle (x y width height linewidth : ℚ) (edgecolor facecolor : String)
  | setTitle (title : String)

/-- plot_annotation(axes, prediction, stroke): dispatches on the prediction
type; object detection draws one rectangle anchored at
(x - width / 2, y - height / 2) with linewidth `stroke`, red edge color and
no fill; classification sets the axes title; anything else draws nothing. -/
def plot_annot (prediction : PyVal) (stroke : ℚ) : Except PyError (List DrawCmd) :=
  match prediction.getItem "prediction_type" with
  | .error e => .error e
  | .ok pt =>
    if pyEq pt (.str OBJECT_DETECTION_MODEL) then
      if prediction.isNone then .ok []
      else
        match prediction.getItem "height" with
        | .error e => .error e
        | .ok hv =>
        match prediction.getItem "width" with
        | .error e => .error e
        | .ok wv =>
        match prediction.getItem "x" with
        | .error e => .error e
        | .ok xv =>
        match prediction.getItem "y" with
        | .error e => .error e
        | .ok yv =>
        match hv.asNum with
        | .error e => .error e
        | .ok h =>
        match wv.asNum with
        | .error e => .error e
        | .ok w =>
        match xv.asNum with
        | .error e => .error e
        | .ok x =>
        match yv.asNum with
        | .error e => .error e
        | .ok y =>
          .ok [DrawCmd.rectangle (x - w / 2) (y - h / 2) w h stroke "r" "none"]
    else if pyEq pt (.str CLASSIFICATION_MODEL) then
      match prediction.getItem "top" with
      | .error e => .error e
      | .ok tv =>
      match tv.asStr with
      | .error e => .error e
      | .ok t =>
      match prediction.getItem "confidence" with
      | .error e => .error e
      | .ok cv =>
      match cv.asStr with
      | .error e => .error e
      | .ok c => .ok [DrawCmd.setTitle ("Class: " ++ t ++ " | Confidence: " ++ c)]
    else .ok []

/-- One step of the loop body of create_prediction_group:
`Prediction(prediction, image_path, prediction_type=prediction_type)` on one
iterated entry; a non-dict entry fails when __init__ assigns into it. -/
def wrapItem (image_path prediction_type : String) (e : JValue) :
    Except PyError PyVal :=
  match e with
  | JValue.obj d =>
      Except.ok (PyVal.pred (Prediction.make d image_path prediction_type))
  | _ => Except.error (PyError.typeError "object does not support item assignment")

/-- Python iteration over the looked-up "predictions" value: lists yield
their elements, strings their characters, dicts their keys; other values
are not iterable. -/
def pyIter : JValue → Except PyError (List JValue)
  | .arr l => Except.ok l
  | .str s => Except.ok (s.toList.map (fun c => JValue.str (String.mk [c])))
  | .obj d => Except.ok (d.map (fun kv => JValue.str kv.1))
  | _ => Except.error (PyError.typeError "object is not iterable")

/-- PredictionGroup.create_prediction_group(json_response, image_path,
prediction_type): iterates json_response["predictions"], wraps each entry in
a Prediction tagged with the given path and type, and builds a group from
the resulting list. -/
def PredictionGroup.create_prediction_group
    (json_response : List (String × JValue)) (image_path : String)
    (prediction_type : String) : Except PyError (PredictionGroup × List String) :=
  match dictGet json_response "predictions" with
  | Option.none => .error (.keyError "predictions")
  | some preds =>
    match pyIter preds with
    | .error e => .error e
    | .ok items =>
      match items.mapM (wrapItem image_path prediction_type) with
      | .error e => .error e
      | .ok plist => PredictionGroup.init plist

/-! Helper lemmas about the dictionary embedding. -/

def lbrace : Char := Char.ofNat 123

/-- The closing curly brace character. -/
def rbrace : Char := Char.ofNat 125

/-- An indentation run of spaces. -/
def spacesList (n : Nat) : List Char := List.replicate n ' '

/-- The decimal digit character for a value below ten. -/
def digitChar (n : Nat) : Char := Char.ofNat (48 + n)

/-- Decimal digits of a natural number, most significant first. -/
def natRepr (n : Nat) : List Char :=
  if h : n < 10 then [digitChar n]
  else natRepr (n / 10) ++ [digitChar (n % 10)]
decreasing_by exact Nat.div_lt_self (by omega) (by omega)

/-- Decimal text of an integer (repr of a Python int). -/
def intRepr (i : Int) : List Char :=
  if i < 0 then '-' :: natRepr (-i).toNat else natRepr i.toNat

/-- Decimal text of an embedded number: integers print as Python ints; a
non-integral rational stands for a Python float, whose shortest-round-trip
decimal printing is floating-point behavior outside this model, so it gets
a fraction placeholder (never JSON-serializable here). -/
def numRepr (q : ℚ) : List Char :=
  if q.den = 1 then intRepr q.num
  else intRepr q.num ++ '/' :: natRepr q.den

/-- The lowercase hex digit character for a value below sixteen. -/
def hexDigitChar (n : Nat) : Char :=
  if n < 10 then Char.ofNat (48 + n) else Char.ofNat (87 + n)

/-- Four lowercase hex digits of a code unit below 0x10000. -/
def toHex4 (n : Nat) : List Char :=
  [hexDigitChar (n / 4096 % 16), hexDigitChar (n / 256 % 16),
   hexDigitChar (n / 16 % 16), hexDigitChar (n % 16)]

/-- Escaping of one character as in json.dumps with ensure_ascii: the two
quote and backslash escapes, the five short control escapes, \\u escapes
for the remaining control and all non-ASCII characters, and surrogate
pairs for characters beyond 0xFFFF. -/
def escChar (c : Char) : List Char :=
  if c = '"' then ['\\', '"']
  else if c = '\\' then ['\\', '\\']
  else if c = '\x08' then ['\\', 'b']
  else if c = '\x0c' then ['\\', 'f']
  else if c = '\n' then ['\\', 'n']
  else if c = '\r' then ['\\', 'r']
  else if c = '\t' then ['\\', 't']
  else if c.toNat < 32 ∨ 126 < c.toNat then
    if c.toNat ≤ 65535 then '\\' :: 'u' :: toHex4 c.toNat
    else
      '\\' :: 'u' :: toHex4 (55296 + (c.toNat - 65536) / 1024) ++
      '\\' :: 'u' :: toHex4 (56320 + (c.toNat - 65536) % 1024)
  else [c]

/-- Escaping of a character sequence. -/
def escList : List Char → List Char
  | [] => []
  | c :: rest => escChar c ++ escList rest

/-- A JSON string literal: quote, escaped body, quote. -/
def escString (s : String) : List Char := '"' :: (escList s.data ++ ['"'])

mutual

/-- json.dumps(v, indent=2) at a given current indentation: atoms print
bare, non-empty containers open, newline-separate their
two-space-more-indented items, and close on a line at the old
indentation. -/
def dumpVal : JValue → Nat → List Char
  | .null, _ => ['n', 'u', 'l', 'l']
  | .bool true, _ => ['t', 'r', 'u', 'e']
  | .bool false, _ => ['f', 'a', 'l', 's', 'e']
  | .num q, _ => numRepr q
  | .str s, _ => escString s
  | .arr [], _ => ['[', ']']
  | .arr (v :: l), ind =>
      '[' :: '\n' ::
        (dumpArr (v :: l) (ind + 2) ++ '\n' :: (spacesList ind ++ [']']))
  | .obj [], _ => [lbrace, rbrace]
  | .obj (kv :: l), ind =>
      lbrace :: '\n' ::
        (dumpObj (kv :: l) (ind + 2) ++ '\n' :: (spacesList ind ++ [rbrace]))

/-- The comma-newline separated items of a non-empty array. -/
def dumpArr : List JValue → Nat → List Char
  | [], _ => []
  | [v], ind => spacesList ind ++ dumpVal v ind
  | v :: w :: l, ind =>
      spacesList ind ++ dumpVal v ind ++ ',' :: '\n' :: dumpArr (w :: l) ind

/-- The comma-newline separated "key": value members of a non-empty
object. -/
def dumpObj : List (String × JValue) → Nat → List Char
  | [], _ => []
  | [(k, v)], ind => spacesList ind ++ escString k ++ ':' :: ' ' :: dumpVal v ind
  | (k, v) :: kv :: l, ind =>
      spacesList ind ++ escString k ++ ':' :: ' ' :: dumpVal v ind ++
        ',' :: '\n' :: dumpObj (kv :: l) ind

end

/-- Prediction.__str__: the pretty-printed (2-space indent) JSON text of
the field mapping. -/
def Prediction.str (p : Prediction) : String :=
  String.mk (dumpVal (.obj p.json_prediction) 0)

/-- JSON whitespace accepted between tokens. -/
def isJsonWs (c : Char) : Bool :=
  c = ' ' || c = '\t' || c = '\n' || c = '\r'

/-- Dropping leading JSON whitespace. -/
def skipWs : List Char → List Char
  | [] => []
  | c :: rest => if isJsonWs c then skipWs rest else c :: rest

/-- The value of a hex digit character, either case. -/
def hexDigitVal (c : Char) : Option Nat :=
  if 48 ≤ c.toNat ∧ c.toNat ≤ 57 then some (c.toNat - 48)
  else if 97 ≤ c.toNat ∧ c.toNat ≤ 102 then some (c.toNat - 87)
  else if 65 ≤ c.toNat ∧ c.toNat ≤ 70 then some (c.toNat - 55)
  else Option.none

/-- The value of four hex digit characters. -/
def hex4 (h1 h2 h3 h4 : Char) : Option Nat :=
  match hexDigitVal h1, hexDigitVal h2, hexDigitVal h3, hexDigitVal h4 with
  | some a, some b, some c, some d => some (((a * 16 + b) * 16 + c) * 16 + d)
  | _, _, _, _ => Option.none

/-- The character named by a short escape. -/
def unescChar (c : Char) : Option Char :=
  if c = '"' then some '"'
  else if c = '\\' then some '\\'
  else if c = '/' then some '/'
  else if c = 'b' then some '\x08'
  else if c = 'f' then some '\x0c'
  else if c = 'n' then some '\n'
  else if c = 'r' then some '\r'
  else if c = 't' then some '\t'
  else Option.none

/-- Decoding of one escape sequence after the backslash: \\u escapes with
surrogate-pair recombination (a lone surrogate is rejected: json.loads
would produce one, but Lean strings cannot carry it), or a short escape. -/
def decodeEsc : List Char → Option (Char × List Char)
  | [] => Option.none
  | 'u' :: h1 :: h2 :: h3 :: h4 :: rest =>
    (match hex4 h1 h2 h3 h4 with
     | Option.none => Option.none
     | some n =>
       if 55296 ≤ n ∧ n ≤ 56319 then
         match rest with
         | '\\' :: 'u' :: g1 :: g2 :: g3 :: g4 :: rest2 =>
           (match hex4 g1 g2 g3 g4 with
            | Option.none => Option.none
            | some m =>
              if 56320 ≤ m ∧ m ≤ 57343 then
                some (Char.ofNat (65536 + (n - 55296) * 1024 + (m - 56320)), rest2)
              else Option.none)
         | _ => Option.none
       else if 56320 ≤ n ∧ n ≤ 57343 then Option.none
       else some (Char.ofNat n, rest))
  | e :: rest =>
    (match unescChar e with
     | some u => some (u, rest)
     | Option.none => Option.none)

/-- The body of a JSON string literal after the opening quote: plain
characters up to the closing quote, the quote-terminated accumulation of
decoded escapes; unescaped control characters are rejected (json.loads is
strict). -/
def parseStringAux : List Char → List Char → Option (String × List Char)
  | _, [] => Option.none
  | acc, c :: rest =>
    if c = '"' then some (String.mk acc.reverse, rest)
    else if c = '\\' then
      match hde : decodeEsc rest with
      | some (u, rest2) => parseStringAux (u :: acc) rest2
      | Option.none => Option.none
    else if c.toNat < 32 then Option.none
    else parseStringAux (c :: acc) rest
termination_by _ cs => cs.length
decreasing_by
  · have hlen : rest2.length ≤ rest.length := by
      delta decodeEsc at hde
      split at hde
      · exact Option.noConfusion hde
      · split at hde
        · exact Option.noConfusion hde
        · split at hde
          · split at hde
            · split at hde
              · exact Option.noConfusion hde
              · split at hde
                · simp only [Option.some.injEq, Prod.mk.injEq] at hde
                  obtain ⟨-, rfl⟩ := hde
                  simp
                  omega
                · exact Option.noConfusion hde
            · exact Option.noConfusion hde
          · split at hde
            · exact Option.noConfusion hde
            · simp only [Option.some.injEq, Prod.mk.injEq] at hde
              obtain ⟨-, rfl⟩ := hde
              simp
              omega
      · split at hde
        · simp only [Option.some.injEq, Prod.mk.injEq] at hde
          obtain ⟨-, rfl⟩ := hde
          simp
        · exact Option.noConfusion hde
    simp
    omega
  · simp

/-- Splitting off a leading run of decimal digits. -/
def spanDigits : List Char → (List Char × List Char)
  | [] => ([], [])
  | c :: rest =>
    if c.isDigit then
      let p := spanDigits rest
      (c :: p.1, p.2)
    else ([], c :: rest)

/-- The numeric value of a run of decimal digits. -/
def digitsVal (ds : List Char) : Nat :=
  ds.foldl (fun a c => a * 10 + (c.toNat - 48)) 0

/-- An optional exponent suffix scales the parsed value. -/
def parseExpDigits (q : ℚ) (neg : Bool) (cs : List Char) :
    Option (ℚ × List Char) :=
  match spanDigits cs with
  | ([], _) => Option.none
  | (ds, rest) =>
    let k := digitsVal ds
    some ((if neg then q / 10 ^ k else q * 10 ^ k), rest)

/-- The exponent part of a JSON number, if present. -/
def parseExpPart (q : ℚ) (cs : List Char) : Option (ℚ × List Char) :=
  match cs with
  | 'e' :: '+' :: rest => parseExpDigits q false rest
  | 'e' :: '-' :: rest => parseExpDigits q true rest
  | 'e' :: rest => parseExpDigits q false rest
  | 'E' :: '+' :: rest => parseExpDigits q false rest
  | 'E' :: '-' :: rest => parseExpDigits q true rest
  | 'E' :: rest => parseExpDigits q false rest
  | _ => some (q, cs)

/-- The unsigned part of a JSON number: digits, optional fraction,
optional exponent. -/
def parseUnsigned (cs : List Char) : Option (ℚ × List Char) :=
  match spanDigits cs with
  | ([], _) => Option.none
  | (ds, rest) =>
    let ipart : ℚ := (digitsVal ds : ℚ)
    match rest with
    | '.' :: rest2 =>
      (match spanDigits rest2 with
       | ([], _) => Option.none
       | (fs, rest3) =>
         parseExpPart (ipart + (digitsVal fs : ℚ) / (10 : ℚ) ^ fs.length) rest3)
    | _ => parseExpPart ipart rest

/-- A JSON number with its optional leading minus sign. -/
def parseNumber (cs : List Char) : Option (JValue × List Char) :=
  match cs with
  | '-' :: rest =>
    (match parseUnsigned rest with
     | some (q, rest2) => some (.num (-q), rest2)
     | Option.none => Option.none)
  | _ =>
    (match parseUnsigned cs with
     | some (q, rest2) => some (.num q, rest2)
     | Option.none => Option.none)

mutual

/-- A JSON value with leading whitespace skipped: the fuel bounds the
container nesting depth. -/
def parseVal : Nat → List Char → Option (JValue × List Char)
  | 0, _ => Option.none
  | Nat.succ f, cs =>
    match skipWs cs with
    | [] => Option.none
    | c :: rest =>
      if c = 'n' then
        match rest with
        | 'u' :: 'l' :: 'l' :: rest2 => some (.null, rest2)
        | _ => Option.none
      else if c = 't' then
        match rest with
        | 'r' :: 'u' :: 'e' :: rest2 => some (.bool true, rest2)
        | _ => Option.none
      else if c = 'f' then
        match rest with
        | 'a' :: 'l' :: 's' :: 'e' :: rest2 => some (.bool false, rest2)
        | _ => Option.none
      else if c = '"' then
        match parseStringAux [] rest with
        | some (s, rest2) => some (.str s, rest2)
        | Option.none => Option.none
      else if c = '[' then
        match skipWs rest with
        | ']' :: rest2 => some (.arr [], rest2)
        | _ =>
          match parseElems f rest with
          | some (l, rest2) => some (.arr l, rest2)
          | Option.none => Option.none
      else if c = lbrace then
        match skipWs rest with
        | d :: rest2 =>
          if d = rbrace then some (.obj [], rest2)
          else
            match parseMembers f rest with
            | some (l, rest3) => some (.obj l, rest3)
            | Option.none => Option.none
        | [] => Option.none
      else if c = '-' ∨ c.isDigit then parseNumber (c :: rest)
      else Option.none

/-- The comma-separated elements of a non-empty array, up to the closing
bracket. -/
def parseElems : Nat → List Char → Option (List JValue × List Char)
  | 0, _ => Option.none
  | Nat.succ f, cs =>
    match parseVal f cs with
    | Option.none => Option.none
    | some (v, rest) =>
      match skipWs rest with
      | ',' :: rest2 =>
        (match parseElems f rest2 with
         | some (l, rest3) => some (v :: l, rest3)
         | Option.none => Option.none)
      | ']' :: rest2 => some ([v], rest2)
      | _ => Option.none

/-- The comma-separated "key": value members of a non-empty object, up to
the closing brace. -/
def parseMembers : Nat → List Char → Option (List (String × JValue) × List Char)
  | 0, _ => Option.none
  | Nat.succ f, cs =>
    match skipWs cs with
    | '"' :: rest =>
      (match parseStringAux [] rest with
       | Option.none => Option.none
       | some (k, rest2) =>
         match skipWs rest2 with
         | ':' :: rest3 =>
           (match parseVal f rest3 with
            | Option.none => Option.none
            | some (v, rest4) =>
              match skipWs rest4 with
              | ',' :: rest5 =>
                (match parseMembers f rest5 with
                 | some (l, rest6) => some ((k, v) :: l, rest6)
                 | Option.none => Option.none)
              | d :: rest5 =>
                if d = rbrace then some ([(k, v)], rest5) else Option.none
              | [] => Option.none)
         | _ => Option.none)
    | _ => Option.none

end

/-- json.loads: parse one value and require only whitespace after it. -/
def py_json_loads (s : String) : Option JValue :=
  match parseVal (s.data.length + 1) s.data with
  | some (v, rest) => if skipWs rest = [] then some v else Option.none
  | Option.none => Option.none

mutual

/-- JSON-serializability with exact round-trip in this model: strings,
booleans, null, integers (a non-integral rational stands for a Python
float, whose decimal printing is floating-point behavior outside this
model), and containers of such values. -/
def serializable : JValue → Bool
  | .null => true
  | .bool _ => true
  | .num q => q.den == 1
  | .str _ => true
  | .arr l => serializableArr l
  | .obj l => serializableObj l

/-- Serializability of all elements of a list. -/
def serializableArr : List JValue → Bool
  | [] => true
  | v :: l => serializable v && serializableArr l

/-- Serializability of all member values of an object. -/
def serializableObj : List (String × JValue) → Bool
  | [] => true
  | (_, v) :: l => serializable v && serializableObj l

end

mutual

/-- Fuel sufficient for parseVal on the printed text of a value. -/
def fuelVal : JValue → Nat
  | .null => 1
  | .bool _ => 1
  | .num _ => 1
  | .str _ => 1
  | .arr l => 1 + fuelElems l
  | .obj l => 1 + fuelMembers l

/-- Fuel sufficient for parseElems on the printed items of an array. -/
def fuelElems : List JValue → Nat
  | [] => 0
  | v :: l => 1 + max (fuelVal v) (fuelElems l)

/-- Fuel sufficient for parseMembers on the printed members of an
object. -/
def fuelMembers : List (String × JValue) → Nat
  | [] => 0
  | (_, v) :: l => 1 + max (fuelVal v) (fuelMembers l)

end

/-! Round-trip lemmas for the JSON printer and parser. -/

def numBoundary : List Char → Prop
  | [] => True
  | c :: _ => c.isDigit = false ∧ c ≠ '.' ∧ c ≠ 'e' ∧ c ≠ 'E'

theorem dictGet_dictSet_same (d : List (String × JValue)) (k : String) (v : JValue) :
    dictGet (dictSet d k v) k = some v := by
  induction d with
  | nil => simp [dictSet, dictGet]
  | cons hd tl ih =>
    obtain ⟨k1, v1⟩ := hd
    by_cases h : k1 = k
    · simp [dictSet, dictGet, h]
    · simp [dictSet, dictGet, h, ih]

theorem dictGet_dictSet_ne (d : List (String × JValue)) (k k2 : String) (v : JValue)
    (h : k2 ≠ k) : dictGet (dictSet d k2 v) k = dictGet d k := by
  induction d with
  | nil => simp [dictSet, dictGet, h]
  | cons hd tl ih =>
    obtain ⟨k1, v1⟩ := hd
    by_cases h1 : k1 = k2
    · simp [dictSet, dictGet, h1, h]
    · by_cases h2 : k1 = k
      · simp [dictSet, dictGet, h1, h2, Ne.symm h]
      · simp [dictSet, dictGet, h1, h2, ih]

theorem make_getItem_pt (d : List (String × JValue)) (ip pt : String) :
    (Prediction.make d ip pt).getItem "prediction_type" = .ok (.str pt) := by
  simp [Prediction.make, Prediction.getItem, dictGet_dictSet_same]

theorem make_getItem_ip (d : List (String × JValue)) (ip pt : String) :
    (Prediction.make d ip pt).getItem "image_path" = .ok (.str ip) := by
  have hne : ("prediction_type" : String) ≠ "image_path" := by decide
  simp [Prediction.make, Prediction.getItem, dictGet_dictSet_ne _ _ _ _ hne,
    dictGet_dictSet_same]

/-- C7: a Prediction constructed as Prediction(fields, image_path,
prediction_type) has p.json()["image_path"] equal to the supplied image_path
and p.json()["prediction_type"] equal to the supplied prediction_type,
whatever keys the field mapping already contained. -/
theorem c7_constructor_tags_fields (d : List (String × JValue)) (ip pt : String) :
    dictGet (Prediction.json (Prediction.make d ip pt)) "image_path"
      = some (.str ip) ∧
    dictGet (Prediction.json (Prediction.make d ip pt)) "prediction_type"
      = some (.str pt) := by
  have h1 := make_getItem_ip d ip pt
  have h2 := make_getItem_pt d ip pt
  unfold Prediction.getItem at h1 h2
  constructor
  · cases h : dictGet (Prediction.json (Prediction.make d ip pt)) "image_path" with
    | none => rw [Prediction.json] at h; rw [h] at h1; cases h1
    | some v => rw [Prediction.json] at h; rw [h] at h1; cases h1; rfl
  · cases h : dictGet (Prediction.json (Prediction.make d ip pt)) "prediction_type" with
    | none => rw [Prediction.json] at h; rw [h] at h2; cases h2
    | some v => rw [Prediction.json] at h; rw [h] at h2; cases h2; rfl

/-- C3: PredictionGroup.save is not a stub like Prediction.save: on every
group it subscripts the member list with the string "prediction_type" and
therefore raises a TypeError, while Prediction.save on any constructed
Prediction returns without doing anything. -/
theorem c3_group_save_raises_type_error :
    (∀ (g : PredictionGroup) (path : String),
      PredictionGroup.save g path
        = .error (.typeError "list indices must be integers or slices, not str")) ∧
    (∀ (d : List (String × JValue)) (ip pt path : String),
      Prediction.save (Prediction.make d ip pt) path = .ok ()) := by
  constructor
  · intro g path
    rfl
  · intro d ip pt path
    simp only [Prediction.save, make_getItem_pt]
    split <;> try split
    all_goals rfl

/-- If add_prediction raises, every mutation site was skipped: the returned
state is the original group. -/
theorem add_state_eq_of_err (g : PredictionGroup) (v : PyVal)
    (h : ((PredictionGroup.add_prediction g v).err).isSome = true) :
    (PredictionGroup.add_prediction g v).state = g := by
  unfold PredictionGroup.add_prediction at h ⊢
  cases hpt : v.getItem "prediction_type" with
  | error e => simp [hpt]
  | ok pt =>
    simp only [hpt] at h ⊢
    cases hec : g.exception_check (some v) Option.none (some pt) with
    | error e => simp [hec]
    | ok ws1 =>
      simp only [hec] at h ⊢
      by_cases hl : g.predictions.length > 0
      · simp only [if_pos hl] at h ⊢
        cases hip : v.getItem "image_path" with
        | error e => simp [hip]
        | ok ip =>
          simp only [hip] at h ⊢
          cases hec2 : g.exception_check Option.none (some ip) Option.none with
          | error e => simp [hec2]
          | ok ws2 => simp [hec2] at h
      · simp only [if_neg hl] at h ⊢
        cases hip : v.getItem "image_path" with
        | error e => simp [hip]
        | ok ip => simp [hip] at h

/-- The membership check passes silently on a Prediction instance. -/
theorem ec_pred (g : PredictionGroup) (p : Prediction) :
    g.exception_check (some (.pred p)) Option.none Option.none = .ok [] := rfl

/-- A Python None argument is treated like the None default: the membership
check is skipped entirely. -/
theorem ec_null (g : PredictionGroup) :
    g.exception_check (some (.val .null)) Option.none Option.none = .ok [] := rfl

/-- The membership check raises on every non-Prediction value other than
None, whatever the other two arguments are. -/
theorem ec_nonpred (g : PredictionGroup) (v : PyVal) (imc ptc : Option JValue)
    (h1 : v.isPred = false) (h2 : v ≠ PyVal.val JValue.null) :
    g.exception_check (some v) imc ptc
      = .error (.exception ("Cannot add type " ++ v.typeName ++ " to PredictionGroup")) := by
  cases v with
  | pred p => simp [PyVal.isPred] at h1
  | val j =>
    cases j with
    | null => exact absurd rfl h2
    | bool b => rfl
    | num q => rfl
    | str s => rfl
    | arr l => rfl
    | obj l => rfl

/-- A successful membership-only check returns no warnings. -/
theorem ec_ok_empty (g : PredictionGroup) (v : PyVal) (ws : List String)
    (h : g.exception_check (some v) Option.none Option.none = .ok ws) : ws = [] := by
  cases v with
  | pred p => rw [ec_pred] at h; cases h; rfl
  | val j =>
    cases j with
    | null => rw [ec_null] at h; cases h; rfl
    | bool b =>
      rw [ec_nonpred g (.val (.bool b)) Option.none Option.none rfl
        (by intro hx; cases hx)] at h
      cases h
    | num q =>
      rw [ec_nonpred g (.val (.num q)) Option.none Option.none rfl
        (by intro hx; cases hx)] at h
      cases h
    | str s =>
      rw [ec_nonpred g (.val (.str s)) Option.none Option.none rfl
        (by intro hx; cases hx)] at h
      cases h
    | arr l =>
      rw [ec_nonpred g (.val (.arr l)) Option.none Option.none rfl
        (by intro hx; cases hx)] at h
      cases h
    | obj l =>
      rw [ec_nonpred g (.val (.obj l)) Option.none Option.none rfl
        (by intro hx; cases hx)] at h
      cases h

/-- From index 1 on, a successful run of the constructor loop never touches
the base fields. -/
theorem initAux_bases (vs : List PyVal) :
    ∀ (index : Nat) (g : PredictionGroup) (acc : List String)
      (g2 : PredictionGroup) (ws : List String), index ≠ 0 →
      PredictionGroup.initAux index g acc vs = .ok (g2, ws) →
      g2.base_image_path = g.base_image_path ∧
      g2.base_prediction_type = g.base_prediction_type := by
  induction vs with
  | nil =>
    intro index g acc g2 ws hi h
    simp only [PredictionGroup.initAux, Except.ok.injEq, Prod.mk.injEq] at h
    rw [← h.1]
    exact ⟨rfl, rfl⟩
  | cons v rest ih =>
    intro index g acc g2 ws hi h
    simp only [PredictionGroup.initAux, if_neg hi] at h
    cases hec : g.exception_check (some v) Option.none Option.none with
    | error e => rw [hec] at h; cases h
    | ok ws1 =>
      rw [hec] at h
      have := ih (index + 1) _ _ g2 ws (Nat.succ_ne_zero index) h
      simpa using this

/-- From index 1 on, a list of members that are all Predictions or None
passes the constructor loop, which just appends them all. -/
theorem initAux_ok_members (vs : List PyVal) :
    ∀ (index : Nat) (g : PredictionGroup) (acc : List String), index ≠ 0 →
      (∀ v ∈ vs, v.isPred = true ∨ v = PyVal.val JValue.null) →
      PredictionGroup.initAux index g acc vs
        = .ok ({ g with predictions := g.predictions ++ vs }, acc) := by
  induction vs with
  | nil =>
    intro index g acc hi _
    simp [PredictionGroup.initAux]
  | cons v rest ih =>
    intro index g acc hi hm
    have hcheck : ∀ (g0 : PredictionGroup),
        g0.exception_check (some v) Option.none Option.none = .ok [] := by
      intro g0
      rcases hm v (List.mem_cons_self v rest) with hv | hv
      · cases v with
        | pred p => exact ec_pred g0 p
        | val j => simp [PyVal.isPred] at hv
      · rw [hv]; exact ec_null g0
    simp only [PredictionGroup.initAux, if_neg hi, hcheck]
    rw [ih (index + 1) _ _ (Nat.succ_ne_zero index)
      (fun w hw => hm w (List.mem_cons_of_mem v hw))]
    simp [List.append_assoc]

/-- From index 1 on, the constructor loop raises as soon as it reaches a
member that is neither a Prediction nor None. -/
theorem initAux_err_bad (vs : List PyVal) :
    ∀ (index : Nat) (g : PredictionGroup) (acc : List String), index ≠ 0 →
      (∃ v ∈ vs, v.isPred = false ∧ v ≠ PyVal.val JValue.null) →
      ∃ e, PredictionGroup.initAux index g acc vs = .error e := by
  induction vs with
  | nil =>
    intro index g acc hi hex
    simp at hex
  | cons v rest ih =>
    intro index g acc hi hex
    by_cases hv : v.isPred = true ∨ v = PyVal.val JValue.null
    · have hcheck : g.exception_check (some v) Option.none Option.none = .ok [] := by
        rcases hv with hv | hv
        · cases v with
          | pred p => exact ec_pred g p
          | val j => simp [PyVal.isPred] at hv
        · rw [hv]; exact ec_null g
      simp only [PredictionGroup.initAux, if_neg hi, hcheck]
      apply ih _ _ _ (Nat.succ_ne_zero index)
      obtain ⟨w, hw, hbad⟩ := hex
      rcases List.mem_cons.mp hw with hweq | hw2
      · exfalso
        rcases hv with hv1 | hv1
        · rw [hweq] at hbad; rw [hbad.1] at hv1; cases hv1
        · rw [hweq] at hbad; exact absurd hv1 hbad.2
      · exact ⟨w, hw2, hbad⟩
    · push_neg at hv
      obtain ⟨hv1, hv2⟩ := hv
      have hv1' : v.isPred = false := by
        cases hpv : v.isPred
        · rfl
        · exact absurd hpv hv1
      simp only [PredictionGroup.initAux, if_neg hi,
        ec_nonpred g v Option.none Option.none hv1' hv2]
      exact ⟨_, rfl⟩

/-- A successful constructor run emits no warnings at all: every check the
constructor performs is a membership-only check. -/
theorem initAux_warnings (vs : List PyVal) :
    ∀ (index : Nat) (g : PredictionGroup) (acc : List String)
      (g2 : PredictionGroup) (ws : List String),
      PredictionGroup.initAux index g acc vs = .ok (g2, ws) → ws = acc := by
  induction vs with
  | nil =>
    intro index g acc g2 ws h
    simp only [PredictionGroup.initAux, Except.ok.injEq, Prod.mk.injEq] at h
    exact h.2.symm
  | cons v rest ih =>
    intro index g acc g2 ws h
    by_cases hi : index = 0
    · simp only [PredictionGroup.initAux, if_pos hi] at h
      cases hip : v.getItem "image_path" with
      | error e => simp only [hip] at h; cases h
      | ok ip =>
        simp only [hip] at h
        cases hpt : v.getItem "prediction_type" with
        | error e => simp only [hpt] at h; cases h
        | ok pt =>
          simp only [hpt] at h
          cases hec : PredictionGroup.exception_check
              { g with base_image_path := ip, base_prediction_type := pt }
              (some v) Option.none Option.none with
          | error e => simp only [hec] at h; cases h
          | ok ws1 =>
            simp only [hec] at h
            have hws1 := ec_ok_empty _ _ _ hec
            subst hws1
            have := ih _ _ _ _ _ h
            simpa using this
    · simp only [PredictionGroup.initAux, if_neg hi] at h
      cases hec : g.exception_check (some v) Option.none Option.none with
      | error e => simp only [hec] at h; cases h
      | ok ws1 =>
        simp only [hec] at h
        have hws1 := ec_ok_empty _ _ _ hec
        subst hws1
        have := ih _ _ _ _ _ h
        simpa using this

/-- On an empty group the combined check on a constructed Prediction passes
without warnings (the type-warning condition requires a non-empty group). -/
theorem ec_pred_ptc_empty (g : PredictionGroup) (p : Prediction) (s : String)
    (h : g.predictions = []) :
    g.exception_check (some (.pred p)) Option.none (some (.str s)) = .ok [] := by
  simp [PredictionGroup.exception_check, PredictionGroup.checkWarnings,
    PredictionGroup.typeWarning, PredictionGroup.pathWarning, pyOptVal, pyOptJ,
    PyVal.typeName, PREDICTION_OBJECT, h]

/-- Adding a constructed Prediction to an empty group succeeds silently,
adopts the image path as base and appends; the base prediction type is not
touched. -/
theorem add_pred_empty (g : PredictionGroup) (d : List (String × JValue))
    (ip pt : String) (h : g.predictions = []) :
    PredictionGroup.add_prediction g (.pred (Prediction.make d ip pt))
      = ⟨Option.none,
         { g with base_image_path := .str ip,
                  predictions := g.predictions ++ [.pred (Prediction.make d ip pt)] },
         []⟩ := by
  simp only [PredictionGroup.add_prediction, PyVal.getItem, make_getItem_pt,
    ec_pred_ptc_empty g (Prediction.make d ip pt) pt h, h, make_getItem_ip]
  simp [h]

/-- The constructor applied to a constructed Prediction followed by any
remaining arguments: the first argument sets both base fields and is
appended before the loop continues at index 1. -/
theorem init_cons_pred (d : List (String × JValue)) (ip pt : String)
    (rest : List PyVal) :
    PredictionGroup.init (.pred (Prediction.make d ip pt) :: rest)
      = PredictionGroup.initAux 1
          ⟨[.pred (Prediction.make d ip pt)], .str ip, .str pt⟩ [] rest := by
  simp [PredictionGroup.init, PredictionGroup.initAux, PyVal.getItem,
    make_getItem_ip, make_getItem_pt, ec_pred]

/-- C1 (amended): base_prediction_type equals the prediction type of the
first member only when that member arrives through the variadic
constructor; the first add_prediction on an empty group adopts the image
path as base but leaves base_prediction_type unchanged (the empty-string
default). -/
theorem c1_base_type_set_only_by_constructor :
    (∀ (d : List (String × JValue)) (ip pt : String) (rest : List PyVal)
       (g2 : PredictionGroup) (ws : List String),
       PredictionGroup.init (.pred (Prediction.make d ip pt) :: rest)
         = .ok (g2, ws) →
       g2.base_image_path = .str ip ∧ g2.base_prediction_type = .str pt) ∧
    (∀ (g : PredictionGroup) (d : List (String × JValue)) (ip pt : String),
       g.predictions = [] →
       (PredictionGroup.add_prediction g (.pred (Prediction.make d ip pt))).err
           = Option.none ∧
       (PredictionGroup.add_prediction g
           (.pred (Prediction.make d ip pt))).state.base_image_path = .str ip ∧
       (PredictionGroup.add_prediction g
           (.pred (Prediction.make d ip pt))).state.base_prediction_type
           = g.base_prediction_type) := by
  constructor
  · intro d ip pt rest g2 ws h
    rw [init_cons_pred] at h
    have := initAux_bases rest 1 _ _ g2 ws Nat.one_ne_zero h
    simpa using this
  · intro g d ip pt h
    rw [add_pred_empty g d ip pt h]
    exact ⟨rfl, rfl, rfl⟩

/-- C1 counterexample: an empty group (as built by `PredictionGroup()`)
receiving its first member through add_prediction keeps the empty-string
default as base_prediction_type even though the member's prediction type is
the object-detection discriminant. -/
theorem c1_counterexample_add_to_empty_group :
    PredictionGroup.init [] = .ok (⟨[], .str "", .str ""⟩, []) ∧
    (Prediction.make [] "img.jpg" OBJECT_DETECTION_MODEL).getItem
        "prediction_type" = .ok (.str OBJECT_DETECTION_MODEL) ∧
    (PredictionGroup.add_prediction ⟨[], .str "", .str ""⟩
        (.pred (Prediction.make [] "img.jpg" OBJECT_DETECTION_MODEL))).err
      = Option.none ∧
    (PredictionGroup.add_prediction ⟨[], .str "", .str ""⟩
        (.pred (Prediction.make [] "img.jpg"
          OBJECT_DETECTION_MODEL))).state.base_prediction_type = .str "" ∧
    ("" : String) ≠ OBJECT_DETECTION_MODEL :=
  ⟨rfl, rfl, rfl, rfl, by decide⟩

/-- C1 witness: the amended statement applied to concrete inputs. -/
theorem c1_base_type_set_only_by_constructor_witness :
    ((⟨[.pred (Prediction.make [] "a.jpg" "classification")], .str "a.jpg",
        .str "classification"⟩ : PredictionGroup).base_image_path
       = .str "a.jpg" ∧
     (⟨[.pred (Prediction.make [] "a.jpg" "classification")], .str "a.jpg",
        .str "classification"⟩ : PredictionGroup).base_prediction_type
       = .str "classification") ∧
    ((PredictionGroup.add_prediction ⟨[], .str "", .str ""⟩
        (.pred (Prediction.make [] "b.jpg" "object-detection"))).err
       = Option.none ∧
     (PredictionGroup.add_prediction ⟨[], .str "", .str ""⟩
        (.pred (Prediction.make [] "b.jpg"
          "object-detection"))).state.base_image_path = .str "b.jpg" ∧
     (PredictionGroup.add_prediction ⟨[], .str "", .str ""⟩
        (.pred (Prediction.make [] "b.jpg"
          "object-detection"))).state.base_prediction_type
       = (⟨[], .str "", .str ""⟩ : PredictionGroup).base_prediction_type) :=
  ⟨c1_base_type_set_only_by_constructor.1 [] "a.jpg" "classification" [] _ [] rfl,
   c1_base_type_set_only_by_constructor.2 ⟨[], .str "", .str ""⟩ []
     "b.jpg" "object-detection" rfl⟩

/-- C4 (amended): construction performs only the membership type check and
never emits warnings; mixed prediction types or image paths among the
constructor arguments are accepted silently (the mismatch warnings exist
only in add_prediction). -/
theorem c4_constructor_emits_no_warnings (args : List PyVal)
    (g : PredictionGroup) (ws : List String)
    (h : PredictionGroup.init args = .ok (g, ws)) : ws = [] :=
  initAux_warnings args 0 ⟨[], .str "", .str ""⟩ [] g ws h

/-- C4 counterexample: constructing a group from two Predictions whose
prediction types and image paths both differ succeeds and emits no warning
at all (the warning list of the construction is empty). -/
theorem c4_counterexample_mixed_construction_no_warning :
    (Prediction.make [] "a.jpg" OBJECT_DETECTION_MODEL).getItem
        "prediction_type" = .ok (.str OBJECT_DETECTION_MODEL) ∧
    (Prediction.make [] "b.jpg" CLASSIFICATION_MODEL).getItem
        "prediction_type" = .ok (.str CLASSIFICATION_MODEL) ∧
    OBJECT_DETECTION_MODEL ≠ CLASSIFICATION_MODEL ∧
    ("a.jpg" : String) ≠ "b.jpg" ∧
    PredictionGroup.init
        [.pred (Prediction.make [] "a.jpg" OBJECT_DETECTION_MODEL),
         .pred (Prediction.make [] "b.jpg" CLASSIFICATION_MODEL)]
      = .ok (⟨[.pred (Prediction.make [] "a.jpg" OBJECT_DETECTION_MODEL),
               .pred (Prediction.make [] "b.jpg" CLASSIFICATION_MODEL)],
              .str "a.jpg", .str OBJECT_DETECTION_MODEL⟩, []) :=
  ⟨rfl, rfl, by decide, by decide, rfl⟩

/-- C4 witness: the amended statement applied to the mixed construction. -/
theorem c4_constructor_emits_no_warnings_witness :
    PredictionGroup.init
        [.pred (Prediction.make [] "c.jpg" OBJECT_DETECTION_MODEL),
         .pred (Prediction.make [] "d.jpg" CLASSIFICATION_MODEL)]
      = .ok (⟨[.pred (Prediction.make [] "c.jpg" OBJECT_DETECTION_MODEL),
               .pred (Prediction.make [] "d.jpg" CLASSIFICATION_MODEL)],
              .str "c.jpg", .str OBJECT_DETECTION_MODEL⟩, []) ∧
    ([] : List String) = [] :=
  ⟨rfl, c4_constructor_emits_no_warnings
    [.pred (Prediction.make [] "c.jpg" OBJECT_DETECTION_MODEL),
     .pred (Prediction.make [] "d.jpg" CLASSIFICATION_MODEL)]
    ⟨[.pred (Prediction.make [] "c.jpg" OBJECT_DETECTION_MODEL),
      .pred (Prediction.make [] "d.jpg" CLASSIFICATION_MODEL)],
     .str "c.jpg", .str OBJECT_DETECTION_MODEL⟩ [] rfl⟩

/-- C10: if add_prediction raises, the observable state of the group is
unchanged: the member list (hence the length and every indexed member) and
both base fields are exactly as before the call. -/
theorem c10_add_prediction_atomic_on_error (g : PredictionGroup) (v : PyVal)
    (h : ((PredictionGroup.add_prediction g v).err).isSome = true) :
    (PredictionGroup.add_prediction g v).state.predictions = g.predictions ∧
    (PredictionGroup.add_prediction g v).state.base_image_path
      = g.base_image_path ∧
    (PredictionGroup.add_prediction g v).state.base_prediction_type
      = g.base_prediction_type := by
  rw [add_state_eq_of_err g v h]
  exact ⟨rfl, rfl, rfl⟩

/-- C10 witness: adding an integer to an empty group raises, and the state
is unchanged. -/
theorem c10_add_prediction_atomic_on_error_witness :
    ((PredictionGroup.add_prediction ⟨[], .str "", .str ""⟩
        (.val (.num 5))).err).isSome = true ∧
    (PredictionGroup.add_prediction ⟨[], .str "", .str ""⟩
        (.val (.num 5))).state.predictions = [] :=
  ⟨rfl, (c10_add_prediction_atomic_on_error ⟨[], .str "", .str ""⟩
    (.val (.num 5)) rfl).1⟩

/-- add_prediction raises on every value that is not a Prediction instance
(the argument evaluation or the membership check fails first). -/
theorem add_err_of_not_pred (g : PredictionGroup) (v : PyVal)
    (h : v.isPred = false) :
    ((PredictionGroup.add_prediction g v).err).isSome = true := by
  cases v with
  | pred p => simp [PyVal.isPred] at h
  | val j =>
    cases j with
    | null => rfl
    | bool b => rfl
    | num q => rfl
    | str s => rfl
    | arr l => rfl
    | obj d =>
      simp only [PredictionGroup.add_prediction]
      cases hd : PyVal.getItem (.val (.obj d)) "prediction_type" with
      | error e => simp [hd]
      | ok pt =>
        simp only [hd, ec_nonpred g (.val (.obj d)) Option.none (some pt) rfl
          (by intro hx; cases hx)]
        rfl

/-- The constructor raises whenever some argument is neither a Prediction
nor None. -/
theorem init_err_of_bad (args : List PyVal)
    (hex : ∃ v ∈ args, v.isPred = false ∧ v ≠ PyVal.val JValue.null) :
    ∃ e, PredictionGroup.init args = .error e := by
  cases args with
  | nil => simp at hex
  | cons a rest =>
    cases a with
    | pred p =>
      have hex2 : ∃ v ∈ rest, v.isPred = false ∧ v ≠ PyVal.val JValue.null := by
        obtain ⟨w, hw, hbad⟩ := hex
        rcases List.mem_cons.mp hw with hweq | hw2
        · rw [hweq] at hbad; simp [PyVal.isPred] at hbad
        · exact ⟨w, hw2, hbad⟩
      cases hip : PyVal.getItem (.pred p) "image_path" with
      | error e =>
        exact ⟨e, by simp [PredictionGroup.init, PredictionGroup.initAux, hip]⟩
      | ok ip =>
        cases hpt : PyVal.getItem (.pred p) "prediction_type" with
        | error e =>
          exact ⟨e, by simp [PredictionGroup.init, PredictionGroup.initAux, hip, hpt]⟩
        | ok pt =>
          rcases initAux_err_bad rest 1 ⟨[PyVal.pred p], ip, pt⟩ []
            Nat.one_ne_zero hex2 with ⟨e, he⟩
          exact ⟨e, by
            simp [PredictionGroup.init, PredictionGroup.initAux, hip, hpt,
              ec_pred, he]⟩
    | val j =>
      cases j with
      | null => exact ⟨_, rfl⟩
      | bool b => exact ⟨_, rfl⟩
      | num q => exact ⟨_, rfl⟩
      | str s => exact ⟨_, rfl⟩
      | arr l => exact ⟨_, rfl⟩
      | obj d =>
        cases hip : dictGet d "image_path" with
        | none =>
          exact ⟨.keyError "image_path", by
            simp [PredictionGroup.init, PredictionGroup.initAux, PyVal.getItem, hip]⟩
        | some ip =>
          cases hpt : dictGet d "prediction_type" with
          | none =>
            exact ⟨.keyError "prediction_type", by
              simp [PredictionGroup.init, PredictionGroup.initAux, PyVal.getItem,
                hip, hpt]⟩
          | some pt =>
            exact ⟨.exception ("Cannot add type dict to PredictionGroup"), by
              simp [PredictionGroup.init, PredictionGroup.initAux, PyVal.getItem,
                hip, hpt, ec_nonpred _ (.val (.obj d)) Option.none Option.none rfl
                  (by intro hx; cases hx), PyVal.typeName]⟩

/-- A constructed Prediction followed by any number of None arguments passes
the constructor: the None values are silently appended as members. -/
theorem init_pred_nulls (d : List (String × JValue)) (ip pt : String)
    (rest : List PyVal) (h : ∀ v ∈ rest, v = PyVal.val JValue.null) :
    PredictionGroup.init (.pred (Prediction.make d ip pt) :: rest)
      = .ok (⟨.pred (Prediction.make d ip pt) :: rest, .str ip, .str pt⟩, []) := by
  rw [init_cons_pred]
  rw [initAux_ok_members rest 1 _ [] Nat.one_ne_zero
    (fun v hv => Or.inr (h v hv))]
  simp

/-- A first-position None argument makes the constructor raise before the
membership check: index 0 evaluates prediction['image_path'], and
subscripting None is a TypeError. -/
theorem init_null_first (args : List PyVal) :
    PredictionGroup.init (.val .null :: args) =
      .error (.typeError "NoneType object is not subscriptable") := by
  rw [PredictionGroup.init, PredictionGroup.initAux]
  rfl

/-- C2 (amended): add_prediction always raises on a non-Prediction value
and never appends it (though the raised error is a key error, not a type
error, for a mapping that lacks the accessed key); the constructor also
raises on every non-Prediction argument except Python None in a non-first
position, which it silently appends (the membership check skips None): a
non-None non-Prediction raises anywhere, and a first-position None raises
because index 0 subscripts it before any check. -/
theorem c2_nonprediction_rejection_amended :
    (∀ (g : PredictionGroup) (v : PyVal), v.isPred = false →
       ((PredictionGroup.add_prediction g v).err).isSome = true ∧
       (PredictionGroup.add_prediction g v).state.predictions = g.predictions) ∧
    (∀ (args : List PyVal),
       (∃ v ∈ args, v.isPred = false ∧ v ≠ PyVal.val JValue.null) →
       ∃ e, PredictionGroup.init args = .error e) ∧
    (∀ (args : List PyVal),
       ∃ e, PredictionGroup.init (.val .null :: args) = .error e) ∧
    (∀ (d : List (String × JValue)) (ip pt : String) (rest : List PyVal),
       (∀ v ∈ rest, v = PyVal.val JValue.null) →
       PredictionGroup.init (.pred (Prediction.make d ip pt) :: rest)
         = .ok (⟨.pred (Prediction.make d ip pt) :: rest, .str ip, .str pt⟩, [])) :=
  ⟨fun g v h =>
    ⟨add_err_of_not_pred g v h,
     by rw [add_state_eq_of_err g v (add_err_of_not_pred g v h)]⟩,
   init_err_of_bad,
   fun args => ⟨.typeError "NoneType object is not subscriptable",
     init_null_first args⟩,
   init_pred_nulls⟩

/-- C2 counterexample: Python None, which is not a Prediction, is appended
by the constructor without any error when it is not the first argument; and
adding an empty dict raises a KeyError (a missing-key error, not a type
error). -/
theorem c2_counterexample_none_appended_and_keyerror :
    (PyVal.val JValue.null).isPred = false ∧
    PredictionGroup.init
        [.pred (Prediction.make [] "a.jpg" "object-detection"), .val .null]
      = .ok (⟨[.pred (Prediction.make [] "a.jpg" "object-detection"), .val .null],
              .str "a.jpg", .str "object-detection"⟩, []) ∧
    (PyVal.val (JValue.obj [])).isPred = false ∧
    (PredictionGroup.add_prediction ⟨[], .str "", .str ""⟩ (.val (.obj []))).err
      = some (.keyError "prediction_type") :=
  ⟨rfl, rfl, rfl, rfl⟩

/-- C2 witness: the amended statement applied to concrete inputs. -/
theorem c2_nonprediction_rejection_amended_witness :
    (((PredictionGroup.add_prediction ⟨[], .str "", .str ""⟩
        (.val (.str "x"))).err).isSome = true ∧
     (PredictionGroup.add_prediction ⟨[], .str "", .str ""⟩
        (.val (.str "x"))).state.predictions = []) ∧
    (∃ e, PredictionGroup.init [.val (.num 3)] = .error e) ∧
    (∃ e, PredictionGroup.init [.val .null] = .error e) ∧
    PredictionGroup.init
        [.pred (Prediction.make [] "e.jpg" "object-detection"), .val .null]
      = .ok (⟨[.pred (Prediction.make [] "e.jpg" "object-detection"), .val .null],
              .str "e.jpg", .str "object-detection"⟩, []) :=
  ⟨c2_nonprediction_rejection_amended.1 ⟨[], .str "", .str ""⟩ (.val (.str "x")) rfl,
   c2_nonprediction_rejection_amended.2.1 [.val (.num 3)]
     ⟨.val (.num 3), by simp, rfl, by intro hx; cases hx⟩,
   c2_nonprediction_rejection_amended.2.2.1 [],
   c2_nonprediction_rejection_amended.2.2.2 [] "e.jpg" "object-detection"
     [.val .null] (fun v hv => by simpa using hv)⟩

/-- Python string equality embeds as Lean string equality. -/
theorem pyEq_str (a b : String) : pyEq (.str a) (.str b) = (a == b) := rfl

/-- The combined check on a Prediction added to a non-empty group with a
differing prediction type emits exactly the type-mismatch warning. -/
theorem ec_warn_type (g : PredictionGroup) (p : Prediction) (s bs : String)
    (hne : g.predictions ≠ []) (hbase : g.base_prediction_type = .str bs)
    (hdiff : s ≠ bs) :
    g.exception_check (some (.pred p)) Option.none (some (.str s))
      = .ok ["This prediction is a different type (" ++ s ++
        ") than the prediction group base type (" ++ bs ++ ")"] := by
  have hlen : decide (g.predictions.length > 0) = true :=
    decide_eq_true (List.length_pos.mpr hne)
  have hpe : pyEq (.str s) (.str bs) = false := by
    rw [pyEq_str]
    exact beq_eq_false_iff_ne.mpr hdiff
  simp [PredictionGroup.exception_check, PredictionGroup.checkWarnings,
    PredictionGroup.typeWarning, PredictionGroup.pathWarning, pyOptVal, pyOptJ,
    PyVal.typeName, PREDICTION_OBJECT, hlen, hpe, hbase, JValue.asStr]

/-- The image-path-only check warns exactly when the paths differ. -/
theorem ec_path_check (g : PredictionGroup) (s bip : String)
    (hbase : g.base_image_path = .str bip) :
    g.exception_check Option.none (some (.str s)) Option.none
      = .ok (if bip = s then []
             else ["This prediction has a different image path (" ++ s ++
               ") than the prediction group base image path (" ++ bip ++ ")"]) := by
  by_cases he : bip = s
  · have hb : (bip == s) = true := beq_iff_eq.mpr he
    simp [PredictionGroup.exception_check, PredictionGroup.checkWarnings,
      PredictionGroup.typeWarning, PredictionGroup.pathWarning, pyOptVal, pyOptJ,
      hbase, he, pyEq_str, hb]
  · have hb : (bip == s) = false := beq_eq_false_iff_ne.mpr he
    simp [PredictionGroup.exception_check, PredictionGroup.checkWarnings,
      PredictionGroup.typeWarning, PredictionGroup.pathWarning, pyOptVal, pyOptJ,
      hbase, he, pyEq_str, hb, JValue.asStr]

/-- C6: adding a constructed Prediction whose prediction type differs from
the base type of a non-empty group succeeds (no exception), appends the
member (so the length grows by exactly one), and the type-mismatch warning
is among the emitted warnings. -/
theorem c6_mixed_type_add_succeeds_with_warning
    (g : PredictionGroup) (d : List (String × JValue)) (ip pt bs bip : String)
    (hne : g.predictions ≠ []) (hbt : g.base_prediction_type = .str bs)
    (hbi : g.base_image_path = .str bip) (hdiff : pt ≠ bs) :
    (PredictionGroup.add_prediction g (.pred (Prediction.make d ip pt))).err
        = Option.none ∧
    (PredictionGroup.add_prediction g
        (.pred (Prediction.make d ip pt))).state.predictions
      = g.predictions ++ [.pred (Prediction.make d ip pt)] ∧
    (PredictionGroup.add_prediction g
        (.pred (Prediction.make d ip pt))).state.predictions.length
      = g.predictions.length + 1 ∧
    ("This prediction is a different type (" ++ pt ++
      ") than the prediction group base type (" ++ bs ++ ")")
      ∈ (PredictionGroup.add_prediction g (.pred (Prediction.make d ip pt))).warnings := by
  have hlen : g.predictions.length > 0 := List.length_pos.mpr hne
  have hadd : PredictionGroup.add_prediction g (.pred (Prediction.make d ip pt))
      = ⟨Option.none,
         { g with predictions := g.predictions ++ [.pred (Prediction.make d ip pt)] },
         ["This prediction is a different type (" ++ pt ++
           ") than the prediction group base type (" ++ bs ++ ")"] ++
         (if bip = ip then []
          else ["This prediction has a different image path (" ++ ip ++
            ") than the prediction group base image path (" ++ bip ++ ")"])⟩ := by
    simp only [PredictionGroup.add_prediction, PyVal.getItem, make_getItem_pt,
      ec_warn_type g (Prediction.make d ip pt) pt bs hne hbt hdiff,
      if_pos hlen, make_getItem_ip, ec_path_check g ip bip hbi]
  rw [hadd]
  exact ⟨rfl, rfl, by simp,
    List.mem_append_left _ (List.mem_singleton_self _)⟩

/-- C6 witness: the statement applied to a concrete one-member group and a
classification prediction added to an object-detection group. -/
theorem c6_mixed_type_add_succeeds_with_warning_witness :
    (PredictionGroup.add_prediction
        ⟨[.pred (Prediction.make [] "a.jpg" "object-detection")],
         .str "a.jpg", .str "object-detection"⟩
        (.pred (Prediction.make [] "a.jpg" "classification"))).err
      = Option.none ∧
    (PredictionGroup.add_prediction
        ⟨[.pred (Prediction.make [] "a.jpg" "object-detection")],
         .str "a.jpg", .str "object-detection"⟩
        (.pred (Prediction.make [] "a.jpg"
          "classification"))).state.predictions
      = (⟨[.pred (Prediction.make [] "a.jpg" "object-detection")],
          .str "a.jpg", .str "object-detection"⟩ : PredictionGroup).predictions
        ++ [.pred (Prediction.make [] "a.jpg" "classification")] ∧
    (PredictionGroup.add_prediction
        ⟨[.pred (Prediction.make [] "a.jpg" "object-detection")],
         .str "a.jpg", .str "object-detection"⟩
        (.pred (Prediction.make [] "a.jpg"
          "classification"))).state.predictions.length
      = (⟨[.pred (Prediction.make [] "a.jpg" "object-detection")],
          .str "a.jpg", .str "object-detection"⟩ : PredictionGroup).predictions.length
        + 1 ∧
    ("This prediction is a different type (" ++ "classification" ++
      ") than the prediction group base type (" ++ "object-detection" ++ ")")
      ∈ (PredictionGroup.add_prediction
        ⟨[.pred (Prediction.make [] "a.jpg" "object-detection")],
         .str "a.jpg", .str "object-detection"⟩
        (.pred (Prediction.make [] "a.jpg" "classification"))).warnings :=
  c6_mixed_type_add_succeeds_with_warning
    ⟨[.pred (Prediction.make [] "a.jpg" "object-detection")],
     .str "a.jpg", .str "object-detection"⟩
    [] "a.jpg" "classification" "object-detection" "a.jpg"
    (List.cons_ne_nil _ _) rfl rfl (by decide)

/-- Binding a successful Except computation just applies the continuation. -/
theorem exbind_ok {α β : Type} (a : α) (f : α → Except PyError β) :
    (Except.ok a : Except PyError α) >>= f = f a := rfl

/-- The mapM accumulator loop over a list of field mappings wraps each one
in order. -/
theorem mapM_loop_wrap (entries : List (List (String × JValue))) (ip pt : String) :
    ∀ acc, List.mapM.loop (wrapItem ip pt) (entries.map JValue.obj) acc
      = Except.ok (acc.reverse
          ++ entries.map (fun d => PyVal.pred (Prediction.make d ip pt))) := by
  induction entries with
  | nil => intro acc; simp only [List.map_nil, List.mapM.loop, List.append_nil]; rfl
  | cons d rest ih =>
    intro acc
    simp only [List.map_cons, List.mapM.loop, wrapItem, exbind_ok, ih]
    simp

/-- Wrapping a response list whose entries are all field mappings produces
one constructed Prediction per entry, in order. -/
theorem mapM_wrapItem (entries : List (List (String × JValue))) (ip pt : String) :
    List.mapM (wrapItem ip pt) (entries.map JValue.obj)
      = Except.ok (entries.map (fun d => PyVal.pred (Prediction.make d ip pt))) := by
  rw [List.mapM, mapM_loop_wrap entries ip pt []]
  rfl

/-- The constructor applied to a list of constructed Predictions succeeds
with no warnings, and its member list is exactly that list. -/
theorem init_all_preds (ds : List (List (String × JValue))) (ip pt : String) :
    ∃ g, PredictionGroup.init
        (ds.map (fun d => PyVal.pred (Prediction.make d ip pt))) = .ok (g, []) ∧
      g.predictions = ds.map (fun d => PyVal.pred (Prediction.make d ip pt)) := by
  cases ds with
  | nil => exact ⟨⟨[], .str "", .str ""⟩, rfl, rfl⟩
  | cons d0 rest =>
    refine ⟨⟨(d0 :: rest).map (fun d => PyVal.pred (Prediction.make d ip pt)),
      .str ip, .str pt⟩, ?_, rfl⟩
    rw [List.map_cons, init_cons_pred]
    rw [initAux_ok_members (rest.map (fun d => PyVal.pred (Prediction.make d ip pt)))
      1 _ [] Nat.one_ne_zero
      (fun v hv => by
        rcases List.mem_map.mp hv with ⟨d, _, rfl⟩
        exact Or.inl rfl)]
    simp

/-- C5: for a response whose "predictions" key holds a list of field
mappings, create_prediction_group succeeds with no warnings, the group
length equals the number of entries, and indexing in order reproduces the
entries, each wrapped as a Prediction tagged with the given path and
type. -/
theorem c5_create_group_order_and_length (resp : List (String × JValue))
    (entries : List (List (String × JValue))) (ip pt : String)
    (h : dictGet resp "predictions" = some (.arr (entries.map JValue.obj))) :
    ∃ g, PredictionGroup.create_prediction_group resp ip pt = .ok (g, []) ∧
      g.predictions = entries.map (fun d => PyVal.pred (Prediction.make d ip pt)) ∧
      g.predictions.length = entries.length := by
  obtain ⟨g, hg, hp⟩ := init_all_preds entries ip pt
  refine ⟨g, ?_, hp, by rw [hp]; simp⟩
  simp only [PredictionGroup.create_prediction_group, h, pyIter,
    mapM_wrapItem entries ip pt]
  exact hg

/-- C5 witness: the statement applied to a concrete two-entry response. -/
theorem c5_create_group_order_and_length_witness :
    dictGet [("predictions",
        JValue.arr [.obj [("top", .str "cat")], .obj [("top", .str "dog")]])]
        "predictions"
      = some (.arr ([[("top", JValue.str "cat")], [("top", JValue.str "dog")]].map
          JValue.obj)) ∧
    ∃ g, PredictionGroup.create_prediction_group
        [("predictions",
          JValue.arr [.obj [("top", .str "cat")], .obj [("top", .str "dog")]])]
        "img.jpg" "classification" = .ok (g, []) ∧
      g.predictions
        = [[("top", JValue.str "cat")], [("top", JValue.str "dog")]].map
            (fun d => PyVal.pred (Prediction.make d "img.jpg" "classification")) ∧
      g.predictions.length
        = [[("top", JValue.str "cat")], [("top", JValue.str "dog")]].length :=
  ⟨rfl, c5_create_group_order_and_length
    [("predictions",
      JValue.arr [.obj [("top", .str "cat")], .obj [("top", .str "dog")]])]
    [[("top", JValue.str "cat")], [("top", JValue.str "dog")]]
    "img.jpg" "classification" rfl⟩

/-- A value on which a field lookup succeeded cannot be Python None. -/
theorem getItem_ok_not_none (v : PyVal) (k : String) (j : JValue)
    (h : v.getItem k = .ok j) : v.isNone = false := by
  cases v with
  | pred p => rfl
  | val jv =>
    cases jv with
    | null => simp [PyVal.getItem] at h
    | bool b => rfl
    | num q => rfl
    | str s => rfl
    | arr l => rfl
    | obj d => rfl

/-- C9: plot_annotation dispatches on the prediction type: for the
object-detection discriminant with numeric x, y, width, height it draws a
single rectangle anchored at (x - width / 2, y - height / 2) with linewidth
stroke, red edge and no fill; for the classification discriminant it only
sets the title "Class: top | Confidence: confidence"; any other prediction
type draws nothing. -/
theorem c9_plot_annot_dispatch :
    (∀ (v : PyVal) (x y w h stroke : ℚ),
      v.getItem "prediction_type" = .ok (.str OBJECT_DETECTION_MODEL) →
      v.getItem "height" = .ok (.num h) →
      v.getItem "width" = .ok (.num w) →
      v.getItem "x" = .ok (.num x) →
      v.getItem "y" = .ok (.num y) →
      plot_annot v stroke
        = .ok [DrawCmd.rectangle (x - w / 2) (y - h / 2) w h stroke "r" "none"]) ∧
    (∀ (v : PyVal) (t c : String) (stroke : ℚ),
      v.getItem "prediction_type" = .ok (.str CLASSIFICATION_MODEL) →
      v.getItem "top" = .ok (.str t) →
      v.getItem "confidence" = .ok (.str c) →
      plot_annot v stroke
        = .ok [DrawCmd.setTitle ("Class: " ++ t ++ " | Confidence: " ++ c)]) ∧
    (∀ (v : PyVal) (pt : JValue) (stroke : ℚ),
      v.getItem "prediction_type" = .ok pt →
      pyEq pt (.str OBJECT_DETECTION_MODEL) = false →
      pyEq pt (.str CLASSIFICATION_MODEL) = false →
      plot_annot v stroke = .ok []) := by
  refine ⟨?_, ?_, ?_⟩
  · intro v x y w h stroke h1 h2 h3 h4 h5
    have hn := getItem_ok_not_none v _ _ h1
    simp [plot_annot, h1, h2, h3, h4, h5, hn, JValue.asNum, pyEq_str]
  · intro v t c stroke h1 h2 h3
    have hcl : pyEq (.str CLASSIFICATION_MODEL) (.str OBJECT_DETECTION_MODEL) = false := by
      decide
    simp [plot_annot, h1, h2, h3, JValue.asStr, pyEq_str, hcl]
  · intro v pt stroke h1 h2 h3
    simp [plot_annot, h1, h2, h3]

/-- C9 witness: the three clauses applied to concrete predictions. -/
theorem c9_plot_annot_dispatch_witness :
    plot_annot (.pred (Prediction.make
        [("x", .num 10), ("y", .num 10), ("width", .num 4), ("height", .num 6)]
        "i.jpg" OBJECT_DETECTION_MODEL)) 1
      = .ok [DrawCmd.rectangle (10 - 4 / 2) (10 - 6 / 2) 4 6 1 "r" "none"] ∧
    plot_annot (.pred (Prediction.make
        [("top", .str "cat"), ("confidence", .str "0.9")]
        "i.jpg" CLASSIFICATION_MODEL)) 1
      = .ok [DrawCmd.setTitle ("Class: " ++ "cat" ++ " | Confidence: " ++ "0.9")] ∧
    plot_annot (.pred (Prediction.make [] "i.jpg" "segmentation")) 1 = .ok [] :=
  ⟨c9_plot_annot_dispatch.1 (.pred (Prediction.make
      [("x", .num 10), ("y", .num 10), ("width", .num 4), ("height", .num 6)]
      "i.jpg" OBJECT_DETECTION_MODEL)) 10 10 4 6 1 rfl rfl rfl rfl rfl,
   c9_plot_annot_dispatch.2.1 (.pred (Prediction.make
      [("top", .str "cat"), ("confidence", .str "0.9")]
      "i.jpg" CLASSIFICATION_MODEL)) "cat" "0.9" 1 rfl rfl rfl,
   c9_plot_annot_dispatch.2.2 (.pred (Prediction.make [] "i.jpg" "segmentation"))
     (.str "segmentation") 1 rfl rfl rfl⟩

/-! JSON serialization: Prediction.__str__ is json.dumps(json_prediction,
indent=2) and the round-trip claim parses that text back (json.loads).
The printer and parser below model the Python library pair on the embedded
value domain; texts are lists of characters. -/

/-- The opening curly brace character. -/

theorem toNat_ofNat_valid (n : Nat) (h : Nat.isValidChar n) :
    (Char.ofNat n).toNat = n := by
  simp only [Char.ofNat, h, dif_pos]
  simp [Char.ofNatAux, Char.toNat, UInt32.toNat, BitVec.toNat_ofNatLt]

theorem char_valid_nat (c : Char) : Nat.isValidChar c.toNat := by
  rcases c.valid with h | ⟨h1, h2⟩
  · exact Or.inl h
  · exact Or.inr ⟨h1, h2⟩

theorem char_toNat_lt (c : Char) : c.toNat < 1114112 := by
  rcases char_valid_nat c with h | ⟨_, h2⟩
  · omega
  · exact h2

theorem char_not_surrogate (c : Char) : c.toNat < 55296 ∨ 57343 < c.toNat := by
  rcases char_valid_nat c with h | ⟨h1, _⟩
  · exact Or.inl h
  · exact Or.inr h1

theorem hexDigitVal_hexDigitChar (k : Nat) (h : k < 16) :
    hexDigitVal (hexDigitChar k) = some k := by
  interval_cases k <;> decide

theorem hex4_toHex4 (n : Nat) (h : n < 65536) :
    hex4 (hexDigitChar (n / 4096 % 16)) (hexDigitChar (n / 256 % 16))
      (hexDigitChar (n / 16 % 16)) (hexDigitChar (n % 16)) = some n := by
  rw [hex4, hexDigitVal_hexDigitChar _ (Nat.mod_lt _ (by omega)),
    hexDigitVal_hexDigitChar _ (Nat.mod_lt _ (by omega)),
    hexDigitVal_hexDigitChar _ (Nat.mod_lt _ (by omega)),
    hexDigitVal_hexDigitChar _ (Nat.mod_lt _ (by omega))]
  simp only [Option.some.injEq]
  omega

theorem de_u_bmp (n : Nat) (hn : n < 65536) (hs : n < 55296 ∨ 57343 < n)
    (l : List Char) :
    decodeEsc ('u' :: toHex4 n ++ l) = some (Char.ofNat n, l) := by
  simp only [toHex4, List.cons_append, List.nil_append]
  delta decodeEsc
  simp only [hex4_toHex4 n hn]
  rw [if_neg (by omega), if_neg (by omega)]

theorem de_u_astral (n : Nat) (hlo : 65536 ≤ n) (hhi : n < 1114112)
    (l : List Char) :
    decodeEsc ('u' :: toHex4 (55296 + (n - 65536) / 1024) ++
        '\\' :: 'u' :: toHex4 (56320 + (n - 65536) % 1024) ++ l)
      = some (Char.ofNat n, l) := by
  simp only [toHex4, List.cons_append, List.nil_append]
  delta decodeEsc
  simp only [hex4_toHex4 (55296 + (n - 65536) / 1024) (by omega)]
  rw [if_pos (by constructor <;> omega)]
  simp only [hex4_toHex4 (56320 + (n - 65536) % 1024) (by omega)]
  rw [if_pos (by constructor <;> omega)]
  have heq : 65536 + (55296 + (n - 65536) / 1024 - 55296) * 1024 +
      (56320 + (n - 65536) % 1024 - 56320) = n := by omega
  rw [heq]

theorem psa_quote (acc l : List Char) :
    parseStringAux acc ('"' :: l) = some (String.mk acc.reverse, l) := by
  rw [parseStringAux]
  simp

theorem psa_plain (c : Char) (h1 : c ≠ '"') (h2 : c ≠ '\\') (h3 : ¬ c.toNat < 32)
    (acc l : List Char) :
    parseStringAux acc (c :: l) = parseStringAux (c :: acc) l := by
  rw [parseStringAux, if_neg h1, if_neg h2, if_neg h3]

theorem psa_esc (acc l : List Char) (u : Char) (l2 : List Char)
    (h : decodeEsc l = some (u, l2)) :
    parseStringAux acc ('\\' :: l) = parseStringAux (u :: acc) l2 := by
  rw [parseStringAux]
  rw [if_neg (by decide), if_pos rfl]
  split
  · rename_i u2 rest2 heq
    rw [heq] at h
    cases h
    rfl
  · rename_i heq
    rw [heq] at h
    cases h

theorem psa_escChar (c : Char) (acc l : List Char) :
    parseStringAux acc (escChar c ++ l) = parseStringAux (c :: acc) l := by
  by_cases h1 : c = '"'
  · subst h1
    exact psa_esc acc _ '"' l rfl
  by_cases h2 : c = '\\'
  · subst h2
    rw [show escChar '\\' = ['\\', '\\'] from rfl]
    exact psa_esc acc _ '\\' l rfl
  by_cases h3 : c = '\x08'
  · subst h3
    rw [show escChar '\x08' = ['\\', 'b'] from rfl]
    exact psa_esc acc _ '\x08' l rfl
  by_cases h4 : c = '\x0c'
  · subst h4
    rw [show escChar '\x0c' = ['\\', 'f'] from rfl]
    exact psa_esc acc _ '\x0c' l rfl
  by_cases h5 : c = '\n'
  · subst h5
    rw [show escChar '\n' = ['\\', 'n'] from rfl]
    exact psa_esc acc _ '\n' l rfl
  by_cases h6 : c = '\r'
  · subst h6
    rw [show escChar '\r' = ['\\', 'r'] from rfl]
    exact psa_esc acc _ '\r' l rfl
  by_cases h7 : c = '\t'
  · subst h7
    rw [show escChar '\t' = ['\\', 't'] from rfl]
    exact psa_esc acc _ '\t' l rfl
  rw [escChar, if_neg h1, if_neg h2, if_neg h3, if_neg h4, if_neg h5, if_neg h6,
    if_neg h7]
  by_cases h8 : c.toNat < 32 ∨ 126 < c.toNat
  · rw [if_pos h8]
    by_cases h9 : c.toNat ≤ 65535
    · rw [if_pos h9]
      rw [List.cons_append, List.cons_append]
      refine psa_esc acc _ c l ?_
      have := de_u_bmp c.toNat (by omega) (char_not_surrogate c) l
      rwa [Char.ofNat_toNat] at this
    · rw [if_neg h9]
      rw [List.cons_append, List.cons_append, List.append_assoc]
      refine psa_esc acc _ c l ?_
      have := de_u_astral c.toNat (by omega) (char_toNat_lt c) l
      rwa [Char.ofNat_toNat] at this
  · rw [if_neg h8]
    rw [List.cons_append, List.nil_append]
    push_neg at h8
    exact psa_plain c h1 h2 (by omega) acc l

theorem psa_escList (cs : List Char) :
    ∀ (acc l : List Char),
      parseStringAux acc (escList cs ++ '"' :: l)
        = some (String.mk (acc.reverse ++ cs), l) := by
  induction cs with
  | nil =>
    intro acc l
    rw [escList, List.nil_append, psa_quote]
    simp
  | cons c cs ih =>
    intro acc l
    rw [escList, List.append_assoc, psa_escChar, ih]
    simp

theorem parse_escString (s : String) (l : List Char) :
    parseStringAux [] (escList s.data ++ '"' :: l) = some (s, l) := by
  rw [psa_escList]
  simp

theorem digitChar_isDigit (k : Nat) (h : k < 10) : (digitChar k).isDigit = true := by
  interval_cases k <;> decide

theorem digitChar_toNat (k : Nat) (h : k < 10) : (digitChar k).toNat = 48 + k :=
  toNat_ofNat_valid _ (Or.inl (by omega))

theorem natRepr_digits (n : Nat) : ∀ c ∈ natRepr n, c.isDigit = true := by
  induction n using Nat.strong_induction_on with
  | _ n ih =>
    intro c hc
    rw [natRepr] at hc
    by_cases h : n < 10
    · rw [dif_pos h] at hc
      simp at hc
      subst hc
      exact digitChar_isDigit n h
    · rw [dif_neg h] at hc
      rcases List.mem_append.mp hc with h2 | h2
      · exact ih (n / 10) (Nat.div_lt_self (by omega) (by omega)) c h2
      · simp at h2
        subst h2
        exact digitChar_isDigit _ (Nat.mod_lt _ (by omega))

theorem natRepr_ne_nil (n : Nat) : natRepr n ≠ [] := by
  rw [natRepr]
  by_cases h : n < 10
  · rw [dif_pos h]
    simp
  · rw [dif_neg h]
    simp

theorem digitsVal_snoc (ds : List Char) (c : Char) :
    digitsVal (ds ++ [c]) = digitsVal ds * 10 + (c.toNat - 48) := by
  simp [digitsVal, List.foldl_append]

theorem digitsVal_natRepr (n : Nat) : digitsVal (natRepr n) = n := by
  induction n using Nat.strong_induction_on with
  | _ n ih =>
    rw [natRepr]
    by_cases h : n < 10
    · rw [dif_pos h]
      have := digitChar_toNat n h
      simp [digitsVal]
      omega
    · rw [dif_neg h]
      rw [digitsVal_snoc, ih (n / 10) (Nat.div_lt_self (by omega) (by omega)),
        digitChar_toNat _ (Nat.mod_lt _ (by omega))]
      omega

theorem spanDigits_append (ds : List Char) (r : List Char)
    (hds : ∀ c ∈ ds, c.isDigit = true)
    (hr : ∀ c r2, r = c :: r2 → c.isDigit = false) :
    spanDigits (ds ++ r) = (ds, r) := by
  induction ds with
  | nil =>
    simp only [List.nil_append]
    cases r with
    | nil => rfl
    | cons c r2 =>
      rw [spanDigits]
      rw [if_neg ?_]
      intro hl
      rw [hr c r2 rfl] at hl
      cases hl
  | cons d ds ih =>
    rw [List.cons_append, spanDigits,
      if_pos (by rw [hds d (List.mem_cons_self d ds)]),
      ih (fun c hc => hds c (List.mem_cons_of_mem d hc))]

theorem parseExpPart_no (q : ℚ) (cs : List Char) (h : numBoundary cs) :
    parseExpPart q cs = some (q, cs) := by
  delta parseExpPart
  split
  all_goals (try rfl)
  all_goals simp [numBoundary] at h

theorem parseUnsigned_nat (n : Nat) (rest : List Char) (hb : numBoundary rest) :
    parseUnsigned (natRepr n ++ rest) = some ((n : ℚ), rest) := by
  have hb2 : ∀ c r2, rest = c :: r2 → c.isDigit = false := by
    intro c r2 he
    subst he
    simp [numBoundary] at hb
    exact hb.1
  delta parseUnsigned
  rw [spanDigits_append (natRepr n) rest (natRepr_digits n) hb2]
  obtain ⟨d, ds', hnd⟩ := List.exists_cons_of_ne_nil (natRepr_ne_nil n)
  rw [hnd]
  simp only []
  split
  · simp [numBoundary] at hb
  · rw [parseExpPart_no _ _ hb, ← hnd, digitsVal_natRepr]

theorem parseNumber_int (i : Int) (rest : List Char) (hb : numBoundary rest) :
    parseNumber (intRepr i ++ rest) = some (.num (i : ℚ), rest) := by
  rw [intRepr]
  by_cases hneg : i < 0
  · rw [if_pos hneg, List.cons_append]
    delta parseNumber
    simp only [parseUnsigned_nat (-i).toNat rest hb]
    have hc : (((-i).toNat : ℚ)) = -(i : ℚ) := by
      have h0 : ((-i).toNat : ℤ) = -i := Int.toNat_of_nonneg (by omega)
      exact_mod_cast h0
    rw [hc, neg_neg]
  · rw [if_neg hneg]
    delta parseNumber
    split
    · rename_i r2 heq
      obtain ⟨d, ds', hnd⟩ := List.exists_cons_of_ne_nil (natRepr_ne_nil i.toNat)
      rw [hnd, List.cons_append] at heq
      injection heq with h1 h2
      have hd := natRepr_digits i.toNat d (by rw [hnd]; exact List.mem_cons_self _ _)
      rw [h1] at hd
      exact absurd hd (by decide)
    · rw [parseUnsigned_nat i.toNat rest hb]
      have hc : ((i.toNat : ℚ)) = (i : ℚ) := by
        have h0 : (i.toNat : ℤ) = i := Int.toNat_of_nonneg (by omega)
        exact_mod_cast h0
      rw [hc]

theorem isDigit_toNat (c : Char) (h : c.isDigit = true) :
    48 ≤ c.toNat ∧ c.toNat ≤ 57 := by
  simp [Char.isDigit] at h
  exact h

theorem skipWs_not (c : Char) (l : List Char) (h : isJsonWs c = false) :
    skipWs (c :: l) = c :: l := by
  rw [skipWs, if_neg (by simp [h])]

theorem skipWs_ws (c : Char) (l : List Char) (h : isJsonWs c = true) :
    skipWs (c :: l) = skipWs l := by
  rw [skipWs, if_pos (by simp [h])]

theorem skipWs_append_ws (ws : List Char) (l : List Char)
    (h : ∀ c ∈ ws, isJsonWs c = true) : skipWs (ws ++ l) = skipWs l := by
  induction ws with
  | nil => rfl
  | cons c ws ih =>
    rw [List.cons_append, skipWs_ws c _ (h c (List.mem_cons_self c ws))]
    exact ih (fun d hd => h d (List.mem_cons_of_mem c hd))

theorem spacesList_ws (n : Nat) : ∀ c ∈ spacesList n, isJsonWs c = true := by
  intro c hc
  rw [spacesList] at hc
  rw [List.eq_of_mem_replicate hc]
  decide

theorem ws_numBoundary (l : List Char)
    (h : ∀ c l2, l = c :: l2 → isJsonWs c = true ∨ (c = ']' ∨ c = ',' ∨ c = rbrace)) :
    numBoundary l := by
  cases l with
  | nil => trivial
  | cons c l2 =>
    rcases h c l2 rfl with hw | hc
    · constructor
      · cases hd : c.isDigit
        · rfl
        · obtain ⟨h1, h2⟩ := isDigit_toNat c hd
          simp [isJsonWs] at hw
          rcases hw with ((rfl | rfl) | rfl) | rfl <;> simp at h1 h2
      · simp [isJsonWs] at hw
        rcases hw with ((rfl | rfl) | rfl) | rfl <;> refine ⟨by decide, by decide, by decide⟩
    · rcases hc with rfl | rfl | rfl <;> exact ⟨by decide, by decide, by decide, by decide⟩

theorem isDigit_props (c : Char) (hd : c.isDigit = true) :
    isJsonWs c = false ∧ c ≠ 'n' ∧ c ≠ 't' ∧ c ≠ 'f' ∧ c ≠ '"' ∧ c ≠ '[' ∧
      c ≠ lbrace ∧ c ≠ ']' := by
  obtain ⟨h1, h2⟩ := isDigit_toNat c hd
  have hne : ∀ m : Nat, c.toNat = m → 48 ≤ m ∧ m ≤ 57 := fun m hm => hm ▸ ⟨h1, h2⟩
  refine ⟨?_, ?_, ?_, ?_, ?_, ?_, ?_, ?_⟩
  · cases hws : isJsonWs c
    · rfl
    · simp [isJsonWs] at hws
      rcases hws with ((rfl | rfl) | rfl) | rfl <;> simp at h1 h2
  · intro he; have := hne 110 (by rw [he]; decide); omega
  · intro he; have := hne 116 (by rw [he]; decide); omega
  · intro he; have := hne 102 (by rw [he]; decide); omega
  · intro he; have := hne 34 (by rw [he]; decide); omega
  · intro he; have := hne 91 (by rw [he]; decide); omega
  · intro he; have := hne 123 (by rw [he]; decide); omega
  · intro he; have := hne 93 (by rw [he]; decide); omega

theorem intRepr_head (i : Int) :
    ∃ c l, intRepr i = c :: l ∧ (c = '-' ∨ c.isDigit = true) := by
  rw [intRepr]
  split
  · exact ⟨'-', _, rfl, Or.inl rfl⟩
  · obtain ⟨c, l, hcl⟩ := List.exists_cons_of_ne_nil (natRepr_ne_nil i.toNat)
    exact ⟨c, l, hcl, Or.inr (natRepr_digits _ c (by rw [hcl]; exact List.mem_cons_self c l))⟩

theorem dumpVal_head (v : JValue) (ind : Nat) :
    ∃ c l, dumpVal v ind = c :: l ∧ isJsonWs c = false ∧ c ≠ ']' := by
  cases v with
  | null => exact ⟨'n', _, rfl, by decide, by decide⟩
  | bool b => cases b
              · exact ⟨'f', _, rfl, by decide, by decide⟩
              · exact ⟨'t', _, rfl, by decide, by decide⟩
  | num q =>
    rw [dumpVal, numRepr]
    obtain ⟨c, l, hcl, hor⟩ := intRepr_head q.num
    have hp : isJsonWs c = false ∧ c ≠ ']' := by
      rcases hor with rfl | hd
      · exact ⟨by decide, by decide⟩
      · obtain ⟨hws, -, -, -, -, -, -, hne⟩ := isDigit_props c hd
        exact ⟨hws, hne⟩
    split
    · exact ⟨c, l, hcl, hp⟩
    · exact ⟨c, _, by rw [hcl, List.cons_append], hp⟩
  | str s => exact ⟨'"', _, rfl, by decide, by decide⟩
  | arr l => cases l
             · exact ⟨'[', _, rfl, by decide, by decide⟩
             · exact ⟨'[', _, rfl, by decide, by decide⟩
  | obj l => cases l
             · exact ⟨lbrace, _, rfl, by decide, by decide⟩
             · exact ⟨lbrace, _, rfl, by decide, by decide⟩

theorem numBoundary_ws_close (ws2 rest : List Char) (d : Char)
    (hws : ∀ c ∈ ws2, isJsonWs c = true) (hd : d = ']' ∨ d = ',' ∨ d = rbrace) :
    numBoundary (ws2 ++ d :: rest) := by
  apply ws_numBoundary
  intro c l2 he
  cases ws2 with
  | nil =>
    simp only [List.nil_append, List.cons.injEq] at he
    exact Or.inr (he.1 ▸ hd)
  | cons w tl =>
    rw [List.cons_append] at he
    injection he with h1 _
    exact Or.inl (h1 ▸ hws w (List.mem_cons_self w tl))

theorem fuelVal_pos (v : JValue) : 1 ≤ fuelVal v := by
  cases v <;> simp [fuelVal]

theorem dumpArr_cons_shape (v : JValue) (l : List JValue) (ind : Nat) :
    ∃ t, dumpArr (v :: l) ind = spacesList ind ++ (dumpVal v ind ++ t) := by
  cases l with
  | nil => exact ⟨[], by rw [dumpArr]; simp⟩
  | cons w l2 =>
    exact ⟨',' :: '\n' :: dumpArr (w :: l2) ind, by rw [dumpArr]; simp [List.append_assoc]⟩

theorem dumpObj_cons_shape (kv : String × JValue) (l : List (String × JValue)) (ind : Nat) :
    ∃ t, dumpObj (kv :: l) ind = spacesList ind ++ ('"' :: t) := by
  obtain ⟨k, v⟩ := kv
  cases l with
  | nil =>
    exact ⟨escList k.data ++ '"' :: ':' :: ' ' :: dumpVal v ind,
      by rw [dumpObj]; simp [escString, List.append_assoc]⟩
  | cons kv2 l2 =>
    exact ⟨escList k.data ++ '"' :: ':' :: ' ' ::
        (dumpVal v ind ++ ',' :: '\n' :: dumpObj (kv2 :: l2) ind),
      by rw [dumpObj]; simp [escString, List.append_assoc]⟩

mutual

theorem parse_dump_val (v : JValue) (f ind : Nat) (ws rest : List Char)
    (hs : serializable v = true) (hf : fuelVal v ≤ f)
    (hws : ∀ c ∈ ws, isJsonWs c = true) (hrest : numBoundary rest) :
    parseVal f (ws ++ (dumpVal v ind ++ rest)) = some (v, rest) := by
  obtain ⟨f2, rfl⟩ : ∃ f2, f = f2 + 1 := ⟨f - 1, by have := fuelVal_pos v; omega⟩
  cases v with
  | null =>
    rw [parseVal]
    simp only [dumpVal, List.cons_append, List.nil_append,
      skipWs_append_ws ws _ hws, skipWs_not 'n' _ (by decide)]
    simp
  | bool b =>
    cases b
    · rw [parseVal]
      simp only [dumpVal, List.cons_append, List.nil_append,
        skipWs_append_ws ws _ hws, skipWs_not 'f' _ (by decide)]
      simp
    · rw [parseVal]
      simp only [dumpVal, List.cons_append, List.nil_append,
        skipWs_append_ws ws _ hws, skipWs_not 't' _ (by decide)]
      simp
  | num q =>
    have hden : q.den = 1 := by simpa [serializable] using hs
    rw [parseVal]
    simp only [dumpVal, numRepr, hden, if_pos]
    obtain ⟨c, l, hcl, hor⟩ := intRepr_head q.num
    rw [hcl]
    simp only [List.cons_append, skipWs_append_ws ws _ hws]
    have hp : isJsonWs c = false ∧ c ≠ 'n' ∧ c ≠ 't' ∧ c ≠ 'f' ∧ c ≠ '"' ∧
        c ≠ '[' ∧ c ≠ lbrace := by
      rcases hor with rfl | hd
      · exact ⟨by decide, by decide, by decide, by decide, by decide, by decide, by decide⟩
      · obtain ⟨a, b1, b2, b3, b4, b5, b6, -⟩ := isDigit_props c hd
        exact ⟨a, b1, b2, b3, b4, b5, b6⟩
    rw [skipWs_not c _ hp.1]
    simp only [if_neg hp.2.1, if_neg hp.2.2.1, if_neg hp.2.2.2.1, if_neg hp.2.2.2.2.1,
      if_neg hp.2.2.2.2.2.1, if_neg hp.2.2.2.2.2.2, if_pos hor]
    rw [← List.cons_append, ← hcl, parseNumber_int q.num rest hrest]
    have hq : ((q.num : ℚ)) = q := by
      rw [← Rat.den_eq_one_iff]
      exact hden
    rw [hq]
  | str s =>
    rw [parseVal]
    simp only [dumpVal, escString, List.cons_append, List.nil_append, List.append_assoc,
      List.singleton_append, skipWs_append_ws ws _ hws, skipWs_not '"' _ (by decide)]
    rw [parse_escString s rest]
    simp
  | arr l =>
    cases l with
    | nil =>
      rw [parseVal]
      simp only [dumpVal, List.cons_append, List.nil_append,
        skipWs_append_ws ws _ hws, skipWs_not '[' _ (by decide)]
      rw [skipWs_not ']' _ (by decide)]
      simp
    | cons w l =>
      have hsa : serializableArr (w :: l) = true := by simpa [serializable] using hs
      have hfe : fuelElems (w :: l) ≤ f2 := by
        simp only [fuelVal] at hf; omega
      rw [parseVal]
      simp only [dumpVal, List.cons_append, List.nil_append, List.append_assoc,
        List.singleton_append, skipWs_append_ws ws _ hws, skipWs_not '[' _ (by decide)]
      simp only [if_neg (by decide : ¬ ('[' = 'n')), if_neg (by decide : ¬ ('[' = 't')),
        if_neg (by decide : ¬ ('[' = 'f')), if_neg (by decide : ¬ ('[' = '"')),
        if_pos rfl, if_true]
      obtain ⟨t, ht⟩ := dumpArr_cons_shape w l (ind + 2)
      obtain ⟨c0, l0, hc0, hc0ws, hc0ne⟩ := dumpVal_head w (ind + 2)
      have he := parse_dump_elems (w :: l) f2 (ind + 2) ['\n'] ('\n' :: spacesList ind)
        rest hsa (List.cons_ne_nil _ _) hfe
        (by intro c hc
            rcases List.mem_cons.1 hc with rfl | hc2
            · decide
            · exact absurd hc2 (List.not_mem_nil c))
        (by intro c hc
            rcases List.mem_cons.1 hc with rfl | hc2
            · decide
            · exact spacesList_ws ind c hc2)
      simp only [List.cons_append, List.nil_append, List.append_assoc,
        List.singleton_append] at he
      have hskip : skipWs ('\n' :: (dumpArr (w :: l) (ind + 2) ++
          ('\n' :: (spacesList ind ++ ']' :: rest)))) =
          c0 :: (l0 ++ (t ++ ('\n' :: (spacesList ind ++ ']' :: rest)))) := by
        rw [skipWs_ws '\n' _ (by decide), ht, hc0]
        simp only [List.append_assoc, List.cons_append]
        rw [skipWs_append_ws _ _ (spacesList_ws (ind + 2)), skipWs_not c0 _ hc0ws]
      split
      · rename_i rest2 heq
        rw [hskip] at heq
        injection heq with h1 _
        exact absurd h1 hc0ne
      · rw [he]
  | obj l =>
    cases l with
    | nil =>
      rw [parseVal]
      simp only [dumpVal, List.cons_append, List.nil_append,
        skipWs_append_ws ws _ hws, skipWs_not lbrace _ (by decide)]
      simp only [if_neg (by decide : ¬ (lbrace = 'n')), if_neg (by decide : ¬ (lbrace = 't')),
        if_neg (by decide : ¬ (lbrace = 'f')), if_neg (by decide : ¬ (lbrace = '"')),
        if_neg (by decide : ¬ (lbrace = '[')), if_pos rfl, if_true]
      rw [skipWs_not rbrace _ (by decide)]
      simp
    | cons kv l =>
      have hso : serializableObj (kv :: l) = true := by simpa [serializable] using hs
      have hfm : fuelMembers (kv :: l) ≤ f2 := by
        simp only [fuelVal] at hf; omega
      rw [parseVal]
      simp only [dumpVal, List.cons_append, List.nil_append, List.append_assoc,
        List.singleton_append, skipWs_append_ws ws _ hws, skipWs_not lbrace _ (by decide)]
      simp only [if_neg (by decide : ¬ (lbrace = 'n')), if_neg (by decide : ¬ (lbrace = 't')),
        if_neg (by decide : ¬ (lbrace = 'f')), if_neg (by decide : ¬ (lbrace = '"')),
        if_neg (by decide : ¬ (lbrace = '[')), if_pos rfl, if_true]
      obtain ⟨t, ht⟩ := dumpObj_cons_shape kv l (ind + 2)
      have hm := parse_dump_members (kv :: l) f2 (ind + 2) ['\n'] ('\n' :: spacesList ind)
        rest hso (List.cons_ne_nil _ _) hfm
        (by intro c hc
            rcases List.mem_cons.1 hc with rfl | hc2
            · decide
            · exact absurd hc2 (List.not_mem_nil c))
        (by intro c hc
            rcases List.mem_cons.1 hc with rfl | hc2
            · decide
            · exact spacesList_ws ind c hc2)
      simp only [List.cons_append, List.nil_append, List.append_assoc,
        List.singleton_append] at hm
      have hskip : skipWs ('\n' :: (dumpObj (kv :: l) (ind + 2) ++
          ('\n' :: (spacesList ind ++ rbrace :: rest)))) =
          '"' :: (t ++ ('\n' :: (spacesList ind ++ rbrace :: rest))) := by
        rw [skipWs_ws '\n' _ (by decide), ht]
        simp only [List.append_assoc, List.cons_append]
        rw [skipWs_append_ws _ _ (spacesList_ws (ind + 2)), skipWs_not '"' _ (by decide)]
      rw [hskip]
      simp only [if_neg (by decide : ¬ ('"' = rbrace))]
      rw [hm]
termination_by jsize v
decreasing_by
  all_goals subst_vars
  all_goals simp [jsize, jsizeArr, jsizeObj]
  all_goals omega

theorem parse_dump_elems (l : List JValue) (f ind : Nat) (ws1 ws2 rest : List Char)
    (hs : serializableArr l = true) (hne : l ≠ []) (hf : fuelElems l ≤ f)
    (hws1 : ∀ c ∈ ws1, isJsonWs c = true) (hws2 : ∀ c ∈ ws2, isJsonWs c = true) :
    parseElems f (ws1 ++ (dumpArr l ind ++ (ws2 ++ ']' :: rest))) = some (l, rest) := by
  obtain ⟨f2, rfl⟩ : ∃ f2, f = f2 + 1 := by
    cases l with
    | nil => exact absurd rfl hne
    | cons v l => exact ⟨f - 1, by simp only [fuelElems] at hf; omega⟩
  cases l with
  | nil => exact absurd rfl hne
  | cons v l =>
    have hsv : serializable v = true := by
      simp only [serializableArr, Bool.and_eq_true] at hs; exact hs.1
    have hfv : fuelVal v ≤ f2 := by
      simp only [fuelElems] at hf
      have := le_max_left (fuelVal v) (fuelElems l)
      omega
    cases l with
    | nil =>
      rw [parseElems, dumpArr]
      have hv := parse_dump_val v f2 ind (ws1 ++ spacesList ind) (ws2 ++ ']' :: rest)
        hsv hfv
        (by intro c hc
            rcases List.mem_append.1 hc with hc2 | hc2
            · exact hws1 c hc2
            · exact spacesList_ws ind c hc2)
        (numBoundary_ws_close ws2 rest ']' hws2 (Or.inl rfl))
      simp only [List.append_assoc] at hv ⊢
      rw [hv]
      simp [skipWs_append_ws ws2 _ hws2, skipWs_not ']' _ (by decide)]
    | cons w l =>
      have hsa : serializableArr (w :: l) = true := by
        simp only [serializableArr, Bool.and_eq_true] at hs
        simp only [serializableArr, Bool.and_eq_true]
        exact hs.2
      have hfe : fuelElems (w :: l) ≤ f2 := by
        simp only [fuelElems] at hf ⊢
        have := le_max_right (fuelVal v) (fuelElems (w :: l))
        simp only [fuelElems] at this
        omega
      rw [parseElems, dumpArr]
      have hv := parse_dump_val v f2 ind (ws1 ++ spacesList ind)
        (',' :: '\n' :: (dumpArr (w :: l) ind ++ (ws2 ++ ']' :: rest)))
        hsv hfv
        (by intro c hc
            rcases List.mem_append.1 hc with hc2 | hc2
            · exact hws1 c hc2
            · exact spacesList_ws ind c hc2)
        (⟨by decide, by decide, by decide, by decide⟩)
      simp only [List.append_assoc, List.cons_append, List.nil_append] at hv ⊢
      rw [hv]
      have he := parse_dump_elems (w :: l) f2 ind ['\n'] ws2 rest hsa
        (List.cons_ne_nil _ _) hfe
        (by intro c hc
            rcases List.mem_cons.1 hc with rfl | hc2
            · decide
            · exact absurd hc2 (List.not_mem_nil c)) hws2
      simp only [List.cons_append, List.nil_append, List.append_assoc] at he
      simp [skipWs_not ',' _ (by decide), he]
termination_by jsizeArr l
decreasing_by
  all_goals subst_vars
  all_goals simp [jsize, jsizeArr, jsizeObj]
  all_goals omega

theorem parse_dump_members (l : List (String × JValue)) (f ind : Nat)
    (ws1 ws2 rest : List Char)
    (hs : serializableObj l = true) (hne : l ≠ []) (hf : fuelMembers l ≤ f)
    (hws1 : ∀ c ∈ ws1, isJsonWs c = true) (hws2 : ∀ c ∈ ws2, isJsonWs c = true) :
    parseMembers f (ws1 ++ (dumpObj l ind ++ (ws2 ++ rbrace :: rest))) = some (l, rest) := by
  obtain ⟨f2, rfl⟩ : ∃ f2, f = f2 + 1 := by
    cases l with
    | nil => exact absurd rfl hne
    | cons kv l => exact ⟨f - 1, by
        obtain ⟨k, v⟩ := kv
        simp only [fuelMembers] at hf; omega⟩
  cases l with
  | nil => exact absurd rfl hne
  | cons kv l =>
    obtain ⟨k, v, rfl⟩ : ∃ k v, kv = (k, v) := ⟨kv.1, kv.2, rfl⟩
    have hsv : serializable v = true := by
      simp only [serializableObj, Bool.and_eq_true] at hs; exact hs.1
    have hfv : fuelVal v ≤ f2 := by
      simp only [fuelMembers] at hf
      have := le_max_left (fuelVal v) (fuelMembers l)
      omega
    cases l with
    | nil =>
      rw [parseMembers, dumpObj]
      simp only [escString, List.append_assoc, List.cons_append, List.nil_append,
        List.singleton_append]
      rw [skipWs_append_ws ws1 _ hws1, skipWs_append_ws _ _ (spacesList_ws ind),
        skipWs_not '"' _ (by decide)]
      have hv := parse_dump_val v f2 ind [' '] (ws2 ++ rbrace :: rest) hsv hfv
        (by intro c hc
            rcases List.mem_cons.1 hc with rfl | hc2
            · decide
            · exact absurd hc2 (List.not_mem_nil c))
        (numBoundary_ws_close ws2 rest rbrace hws2 (Or.inr (Or.inr rfl)))
      simp only [List.cons_append, List.nil_append] at hv
      simp [parse_escString k (':' :: ' ' :: (dumpVal v ind ++ (ws2 ++ rbrace :: rest))),
        skipWs_not ':' _ (by decide), hv, skipWs_append_ws ws2 _ hws2,
        skipWs_not rbrace _ (by decide)]
      split
      · next rest5 heq =>
        injection heq with h1 _
        exact absurd h1 (by decide)
      · next d rest5 heq =>
        injection heq with h1 h2
        subst h1
        subst h2
        simp
      · next heq =>
        simp at heq
    | cons kv2 l =>
      obtain ⟨k2, v2, rfl⟩ : ∃ k2 v2, kv2 = (k2, v2) := ⟨kv2.1, kv2.2, rfl⟩
      have hso : serializableObj ((k2, v2) :: l) = true := by
        simp only [serializableObj, Bool.and_eq_true] at hs ⊢
        exact hs.2
      have hfm : fuelMembers ((k2, v2) :: l) ≤ f2 := by
        simp only [fuelMembers] at hf ⊢
        have := le_max_right (fuelVal v) (1 + max (fuelVal v2) (fuelMembers l))
        omega
      rw [parseMembers, dumpObj]
      simp only [escString, List.append_assoc, List.cons_append, List.nil_append,
        List.singleton_append]
      rw [skipWs_append_ws ws1 _ hws1, skipWs_append_ws _ _ (spacesList_ws ind),
        skipWs_not '"' _ (by decide)]
      have hv := parse_dump_val v f2 ind [' ']
        (',' :: '\n' :: (dumpObj ((k2, v2) :: l) ind ++ (ws2 ++ rbrace :: rest))) hsv hfv
        (by intro c hc
            rcases List.mem_cons.1 hc with rfl | hc2
            · decide
            · exact absurd hc2 (List.not_mem_nil c))
        (⟨by decide, by decide, by decide, by decide⟩)
      simp only [List.cons_append, List.nil_append] at hv
      have hm := parse_dump_members ((k2, v2) :: l) f2 ind ['\n'] ws2 rest hso
        (List.cons_ne_nil _ _) hfm
        (by intro c hc
            rcases List.mem_cons.1 hc with rfl | hc2
            · decide
            · exact absurd hc2 (List.not_mem_nil c)) hws2
      simp only [List.cons_append, List.nil_append, List.append_assoc] at hm
      simp [parse_escString k (':' :: ' ' :: (dumpVal v ind ++
          (',' :: '\n' :: (dumpObj ((k2, v2) :: l) ind ++ (ws2 ++ rbrace :: rest))))),
        skipWs_not ':' _ (by decide), hv, skipWs_not ',' _ (by decide), hm]
termination_by jsizeObj l
decreasing_by
  all_goals subst_vars
  all_goals simp [jsize, jsizeArr, jsizeObj]
  all_goals omega

end


mutual

theorem fv_le (v : JValue) (ind : Nat) : fuelVal v ≤ (dumpVal v ind).length := by
  cases v with
  | null => simp [fuelVal, dumpVal]
  | bool b => cases b <;> simp [fuelVal, dumpVal]
  | num q =>
    simp only [fuelVal, dumpVal, numRepr]
    obtain ⟨c, l, hcl, -⟩ := intRepr_head q.num
    split <;> rw [hcl] <;> simp
  | str s => simp [fuelVal, dumpVal, escString]
  | arr l =>
    cases l with
    | nil => simp [fuelVal, fuelElems, dumpVal]
    | cons w l =>
      have := fe_le (w :: l) (ind + 2) (by omega)
      simp only [fuelVal, dumpVal]
      simp [spacesList]
      omega
  | obj l =>
    cases l with
    | nil => simp [fuelVal, fuelMembers, dumpVal]
    | cons kv l =>
      have := fm_le (kv :: l) (ind + 2) (by omega)
      simp only [fuelVal, dumpVal]
      simp [spacesList]
      omega
termination_by jsize v
decreasing_by
  all_goals subst_vars
  all_goals simp [jsize, jsizeArr, jsizeObj]
  all_goals omega

theorem fe_le (l : List JValue) (ind : Nat) (h : 1 ≤ ind) :
    fuelElems l ≤ (dumpArr l ind).length := by
  cases l with
  | nil => simp [fuelElems, dumpArr]
  | cons v l =>
    cases l with
    | nil =>
      have := fv_le v ind
      simp only [fuelElems, fuelVal, dumpArr]
      simp [spacesList, fuelElems]
      omega
    | cons w l =>
      have h1 := fv_le v ind
      have h2 := fe_le (w :: l) ind h
      simp only [fuelElems] at h2 ⊢
      simp only [dumpArr]
      simp [spacesList]
      omega
termination_by jsizeArr l
decreasing_by
  all_goals subst_vars
  all_goals simp [jsize, jsizeArr, jsizeObj]
  all_goals omega

theorem fm_le (l : List (String × JValue)) (ind : Nat) (h : 1 ≤ ind) :
    fuelMembers l ≤ (dumpObj l ind).length := by
  cases l with
  | nil => simp [fuelMembers, dumpObj]
  | cons kv l =>
    obtain ⟨k, v, rfl⟩ : ∃ k v, kv = (k, v) := ⟨kv.1, kv.2, rfl⟩
    cases l with
    | nil =>
      have := fv_le v ind
      simp only [fuelMembers, fuelVal, dumpObj]
      simp [spacesList, fuelMembers, escString]
      omega
    | cons kv2 l =>
      have h1 := fv_le v ind
      have h2 := fm_le (kv2 :: l) ind h
      simp only [fuelMembers] at h2 ⊢
      simp only [dumpObj]
      simp [spacesList, escString]
      omega
termination_by jsizeObj l
decreasing_by
  all_goals subst_vars
  all_goals simp [jsize, jsizeArr, jsizeObj]
  all_goals omega

end

theorem loads_dumps (v : JValue) (hs : serializable v = true) :
    py_json_loads (String.mk (dumpVal v 0)) = some v := by
  rw [py_json_loads]
  have hd : (String.mk (dumpVal v 0)).data = dumpVal v 0 := rfl
  have h1 : fuelVal v ≤ (String.mk (dumpVal v 0)).data.length + 1 := by
    have := fv_le v 0
    rw [hd]
    omega
  have h2 := parse_dump_val v ((String.mk (dumpVal v 0)).data.length + 1) 0 [] [] hs h1
    (by intro c hc; exact absurd hc (List.not_mem_nil c)) trivial
  simp only [List.nil_append, List.append_nil] at h2
  rw [hd, h2]
  simp [skipWs]


/-- C8: for every Prediction whose field mapping is JSON-serializable,
parsing the pretty-printed JSON text of its string form yields exactly the
mapping returned by json(). -/
theorem c8_str_roundtrip_parses_to_json (p : Prediction)
    (hs : serializable (.obj p.json_prediction) = true) :
    py_json_loads (Prediction.str p) = some (.obj (Prediction.json p)) := by
  rw [Prediction.str, Prediction.json]
  exact loads_dumps (.obj p.json_prediction) hs

theorem c8_str_roundtrip_parses_to_json_witness :
    serializable (.obj (Prediction.make [("x", .num 10)]
        "img.jpg" "object-detection").json_prediction) = true ∧
    py_json_loads (Prediction.str (Prediction.make [("x", .num 10)]
        "img.jpg" "object-detection")) =
      some (.obj (Prediction.json (Prediction.make [("x", .num 10)]
        "img.jpg" "object-detection"))) :=
  ⟨by rfl, c8_str_roundtrip_parses_to_json _ (by rfl)⟩
